import Mathlib

/-!
Verification development for the runtime core of the Crow scripting language:
a shallow embedding, in Lean 4, of the bytecode virtual machine found in
`src/vm.rs`, the closure/up-value model of `src/object.rs`, the tagged value
model of `src/value.rs`, the instruction encoding of `src/op.rs`, and the
error model of `src/errors.rs`, together with theorems about the embedded
definitions.

Modelling conventions:
* Rust `i64` is modelled as unbounded `Int`; none of the verified properties
  depends on wrap-around, and where a bit pattern matters (the `Arg24`
  encoding) the reduction modulo `2 ^ 64` is written out explicitly.
* Rust `f64` is modelled by `Crow.F64`: exact rationals for finite values
  plus the IEEE 754 special values (infinities, NaN).  Rounding of finite
  results is not modelled (no verified property depends on it); the special
  cases around division by zero follow IEEE 754 exactly as Rust `f64` does.
* Rust panics (index out of bounds, `todo!`, integer division by zero,
  debug-mode arithmetic overflow on `usize` subtraction) are modelled by a
  distinct `crash` outcome, separate from the `Error` results the VM
  returns through `Result`.
* The shared mutable handles `Handle<UpValue>` (`Rc<RefCell<_>>`) are
  modelled by an explicit heap: the field `Vm.cells` is a list of cells and
  a handle is an index into it.  Allocating a handle appends a cell.
* `Vec<Value>` with its absolute indexing is modelled as `List Value` with
  index 0 the bottom of the stack; a push appends at the right end.
-/

namespace Crow

/-- Error kinds, from `src/errors.rs` (`ErrorKind::Runtime`, `ErrorKind::Type`). -/
inductive ErrorKind where
  | runtime
  | typeKind
deriving DecidableEq

/-- A VM error: message plus kind, from `src/errors.rs` (`struct Error`). -/
structure Error where
  message : String
  kind : ErrorKind
deriving DecidableEq

/-- Builds a runtime error, from `src/errors.rs` (`fn runtime_err`). -/
def runtime_err (message : String) : Error :=
  { message := message, kind := ErrorKind.runtime }

/-- Outcome of a fallible computation: `ok` and `err` mirror Rust's
`Result`, while `crash` models a Rust panic (which aborts the run and is
not an `Error` value returned to the caller). -/
inductive Res (α : Type) where
  | ok (a : α)
  | err (e : Error)
  | crash (msg : String)
deriving DecidableEq

/-- Modelled from the spec: the module `limits.rs` is declared in `lib.rs`
but is not among the source files; `op.rs` imports `MAX_ARG_24` and
`MIN_ARG24` from it.  The spec fixes the signed range representable by
`Arg24` as `[-2 ^ 23, 2 ^ 23)` with encoding failing outside it; since
`Arg24::from_i64` rejects `value >= MAX_ARG_24` and `value <= MIN_ARG24`,
the bounds below make exactly that interval encodable. -/
def MAX_ARG_24 : Int := 8388608

/-- Modelled from the spec: lower bound companion of `MAX_ARG_24`
(see its doc comment); `-2 ^ 23 - 1`, so that `-2 ^ 23` itself encodes. -/
def MIN_ARG24 : Int := -8388609

/-- The unsigned 64-bit bit pattern of an `i64` value (two's complement). -/
def toNat64 (v : Int) : Nat :=
  (v % 18446744073709551616).toNat

/-- A 24-bit instruction argument stored as three little-endian bytes,
from `src/op.rs` (`struct Arg24([u8; 3])`). -/
structure Arg24 where
  b0 : Nat
  b1 : Nat
  b2 : Nat
deriving DecidableEq

namespace Arg24

/-- Decodes the three bytes as a sign-extended `i64`, from `src/op.rs`
(`Arg24::into_i64`): the bytes are placed in the most significant
positions of an `i64` and arithmetically shifted right by 40.  The shift
is written as an exact division, which agrees with the arithmetic shift
because the shifted value is a multiple of `2 ^ 40`. -/
def into_i64 (x : Arg24) : Int :=
  let n : Nat := (x.b0 + 256 * x.b1 + 65536 * x.b2) * 1099511627776
  let s : Int := if n < 9223372036854775808 then (n : Int) else (n : Int) - 18446744073709551616
  s / 1099511627776

/-- Decodes the three bytes as an unsigned 32-bit value, from `src/op.rs`
(`Arg24::into_u32`). -/
def into_u32 (x : Arg24) : Nat :=
  x.b0 + 256 * x.b1 + 65536 * x.b2

/-- Decodes the three bytes as a `usize`, from `src/op.rs`
(`Arg24::into_usize`). -/
def into_usize (x : Arg24) : Nat :=
  x.b0 + 256 * x.b1 + 65536 * x.b2

/-- Encodes an `i64`, from `src/op.rs` (`Arg24::from_i64`): values
`>= MAX_ARG_24` or `<= MIN_ARG24` are encode-time errors, otherwise the
three low bytes of the two's-complement representation are kept. -/
def from_i64 (value : Int) : Res Arg24 :=
  if MAX_ARG_24 ≤ value then
    Res.err (runtime_err ("value is too large to fit in 24 bits"))
  else if value ≤ MIN_ARG24 then
    Res.err (runtime_err ("value is too small to fit in 24 bits"))
  else
    let t := toNat64 value
    Res.ok { b0 := t % 256, b1 := t / 256 % 256, b2 := t / 65536 % 256 }

/-- Encodes a `u32`, from `src/op.rs` (`Arg24::from_u32`): the three low
bytes are kept; there is no range check and the result is always `ok`. -/
def from_u32 (value : Nat) : Res Arg24 :=
  Res.ok { b0 := value % 256, b1 := value / 256 % 256, b2 := value / 65536 % 256 }

end Arg24

/-- Model of Rust `f64`: exact rationals for finite values plus the IEEE 754
special values.  The sign of zero is not modelled and finite arithmetic is
exact instead of rounded; the special-value rules (in particular division
by zero) follow IEEE 754 as Rust's `f64` operators do. -/
inductive F64 where
  | finite (q : Rat)
  | posInf
  | negInf
  | nan
deriving DecidableEq

namespace F64

/-- Truncation toward zero of a rational, used for float remainder. -/
def truncRat (q : Rat) : Int :=
  if 0 ≤ q then q.floor else q.ceil

/-- Negation of an `f64` (Rust unary `-`). -/
def neg : F64 → F64
  | finite q => finite (-q)
  | posInf => negInf
  | negInf => posInf
  | nan => nan

/-- Addition of `f64` values (Rust `+`). -/
def add : F64 → F64 → F64
  | nan, _ => nan
  | _, nan => nan
  | posInf, negInf => nan
  | negInf, posInf => nan
  | posInf, _ => posInf
  | _, posInf => posInf
  | negInf, _ => negInf
  | _, negInf => negInf
  | finite a, finite b => finite (a + b)

/-- Subtraction of `f64` values (Rust `-`). -/
def sub (a b : F64) : F64 :=
  add a (neg b)

/-- Multiplication of `f64` values (Rust `*`). -/
def mul : F64 → F64 → F64
  | nan, _ => nan
  | _, nan => nan
  | posInf, posInf => posInf
  | posInf, negInf => negInf
  | negInf, posInf => negInf
  | negInf, negInf => posInf
  | posInf, finite b => if b = 0 then nan else if 0 < b then posInf else negInf
  | finite a, posInf => if a = 0 then nan else if 0 < a then posInf else negInf
  | negInf, finite b => if b = 0 then nan else if 0 < b then negInf else posInf
  | finite a, negInf => if a = 0 then nan else if 0 < a then negInf else posInf
  | finite a, finite b => finite (a * b)

/-- Division of `f64` values (Rust `/`): division of a non-zero finite
value by zero yields a signed infinity, `0.0 / 0.0` yields NaN, and no
error or panic is ever produced. -/
def div : F64 → F64 → F64
  | nan, _ => nan
  | _, nan => nan
  | posInf, posInf => nan
  | posInf, negInf => nan
  | negInf, posInf => nan
  | negInf, negInf => nan
  | posInf, finite b => if b < 0 then negInf else posInf
  | negInf, finite b => if b < 0 then posInf else negInf
  | finite _, posInf => finite 0
  | finite _, negInf => finite 0
  | finite a, finite b =>
    if b = 0 then
      if a = 0 then nan else if 0 < a then posInf else negInf
    else finite (a / b)

/-- Remainder of `f64` values (Rust `%`, i.e. `fmod`): NaN when the
divisor is zero or the dividend infinite; otherwise the remainder has the
sign of the dividend. -/
def fmod : F64 → F64 → F64
  | nan, _ => nan
  | _, nan => nan
  | posInf, _ => nan
  | negInf, _ => nan
  | finite a, posInf => finite a
  | finite a, negInf => finite a
  | finite a, finite b =>
    if b = 0 then nan else finite (a - b * (truncRat (a / b) : Rat))

/-- IEEE equality (Rust `==` on `f64`): NaN compares unequal to everything. -/
def feq : F64 → F64 → Bool
  | nan, _ => false
  | _, nan => false
  | posInf, posInf => true
  | negInf, negInf => true
  | finite a, finite b => a = b
  | _, _ => false

/-- IEEE inequality (Rust `!=` on `f64`). -/
def fne (a b : F64) : Bool :=
  !(feq a b)

/-- IEEE strict less-than (Rust `<` on `f64`): false when NaN is involved. -/
def flt : F64 → F64 → Bool
  | nan, _ => false
  | _, nan => false
  | posInf, _ => false
  | negInf, negInf => false
  | negInf, _ => true
  | finite _, posInf => true
  | finite _, negInf => false
  | finite a, finite b => a < b

/-- IEEE less-or-equal (Rust `<=` on `f64`). -/
def fle (a b : F64) : Bool :=
  flt a b || feq a b

/-- IEEE strict greater-than (Rust `>` on `f64`). -/
def fgt (a b : F64) : Bool :=
  flt b a

/-- IEEE greater-or-equal (Rust `>=` on `f64`). -/
def fge (a b : F64) : Bool :=
  fle b a

end F64

/-- Up-value capture origin, from `src/object.rs` (`enum UpValueOrigin`). -/
inductive UpValueOrigin where
  | Parent (local_id : Nat)
  | Outer (upvalue_id : Nat)
deriving DecidableEq

/-- Bytecode instruction, from `src/op.rs` (`enum Op`).  The `u8`/`u16`
payload fields are modelled as `Nat`. -/
inductive Op where
  | NoOp
  | Pop (n : Arg24)
  | End
  | Return (results : Nat)
  | Call (base : Nat) (results : Nat)
  | Load (offset : Nat) (len : Nat)
  | Store (offset : Nat) (len : Nat)
  | SetLocal (slot : Nat)
  | GetLocal (slot : Nat)
  | SetUpValue (upvalue_id : Nat)
  | GetUpValue (upvalue_id : Nat)
  | SetGlobal (string : Nat)
  | GetGlobal (string : Nat)
  | PushIntIn (v : Arg24)
  | PushInt (const_id : Arg24)
  | PushFloat (const_id : Arg24)
  | PushString (const_id : Arg24)
  | PushFunc (const_id : Arg24)
  | CaptureValue (origin : UpValueOrigin)
  | CreateClosure (func_id : Arg24)
  | Int_Neg
  | Int_Add
  | Int_Sub
  | Int_Mul
  | Int_Div
  | Int_Mod
  | Int_Ne
  | Int_Eq
  | Int_Lt
  | Int_Le
  | Int_Gt
  | Int_Ge
  | Float_Neg
  | Float_Add
  | Float_Sub
  | Float_Mul
  | Float_Div
  | Float_Mod
  | Float_Ne
  | Float_Eq
  | Float_Lt
  | Float_Le
  | Float_Gt
  | Float_Ge
  | Str_Concat
  | Str_Slice
  | JumpNe (addr : Arg24)
  | JumpEq (addr : Arg24)
  | JumpLt (addr : Arg24)
  | JumpLe (addr : Arg24)
  | JumpGt (addr : Arg24)
  | JumpGe (addr : Arg24)
  | JumpZero (addr : Arg24)
  | Jump (addr : Arg24)

/-- Typed constant pools of a function prototype, from `src/object.rs`
(`struct Constants`), parameterized by the prototype type to allow the
nested recursion in `Func`. -/
structure Constants (F : Type) where
  ints : List Int
  floats : List F64
  strings : List String
  funcs : List F

/-- Function prototype, from `src/object.rs` (`struct Func`): code,
stack-slot requirement, variadic flag, constant pools and up-value origin
table.  Nested prototypes live in `constants.funcs`. -/
inductive Func where
  | mk (code : List Op) (stack_size : Nat) (is_varg : Bool)
       (constants : Constants Func) (up_values : List UpValueOrigin)

namespace Func

/-- Code array of a prototype. -/
def code : Func → List Op
  | mk c _ _ _ _ => c

/-- Stack-slot requirement of a prototype. -/
def stack_size : Func → Nat
  | mk _ s _ _ _ => s

/-- Variadic flag of a prototype. -/
def is_varg : Func → Bool
  | mk _ _ v _ _ => v

/-- Constant pools of a prototype. -/
def constants : Func → Constants Func
  | mk _ _ _ k _ => k

/-- Up-value origin table of a prototype. -/
def up_values : Func → List UpValueOrigin
  | mk _ _ _ _ u => u

end Func

/-- Runtime closure, from `src/object.rs` (`struct Closure`): a prototype
plus a vector of up-value cell handles.  A handle is an index into the
cell heap `Vm.cells`. -/
structure Closure where
  func : Func
  up_values : List Nat

/-- Creates a closure with no up-values, from `src/object.rs`
(`Closure::new`). -/
def Closure.new (func : Func) : Closure :=
  { func := func, up_values := [] }

/-- Creates a closure with the given up-value handles, from
`src/object.rs` (`Closure::with_up_values`). -/
def Closure.with_up_values (func : Func) (up_values : List Nat) : Closure :=
  { func := func, up_values := up_values }

/-- Heap object, from `src/object.rs` (`enum Object`): the source has
exactly the `Closure` and `Func` variants. -/
inductive Object where
  | closure (c : Closure)
  | func (f : Func)

/-- Tagged value, from `src/value.rs` (`enum Value`). -/
inductive Value where
  | int (i : Int)
  | uint (u : Nat)
  | float (f : F64)
  | object (o : Object)

namespace Value

/-- Booleans are represented as `Int 0/1`, from `src/value.rs`
(`Value::from_bool`). -/
def from_bool (b : Bool) : Value :=
  if b then int 1 else int 0

/-- Projection to an integer, from `src/value.rs` (`Value::as_int`). -/
def as_int : Value → Option Int
  | int i => some i
  | _ => none

/-- Projection to a float, from `src/value.rs` (`Value::as_float`). -/
def as_float : Value → Option F64
  | float f => some f
  | _ => none

/-- Projection to a closure, from `src/value.rs` (`Value::as_closure`). -/
def as_closure : Value → Option Closure
  | object (Object.closure c) => some c
  | _ => none

/-- Wraps a closure as a value, from `src/value.rs` (`Value::from_closure`). -/
def from_closure (c : Closure) : Value :=
  object (Object.closure c)

/-- Wraps a prototype as a value, from `src/value.rs` (`Value::from_func`). -/
def from_func (f : Func) : Value :=
  object (Object.func f)

end Value

/-- Up-value cell, from `src/object.rs` (`enum UpValue`): either open
(an absolute operand-stack offset) or closed (owning a value). -/
inductive UpValue where
  | Open (stack_offset : Nat)
  | Closed (v : Value)

/-- Closing a cell, from `src/object.rs` (`UpValue::close`). -/
def UpValue.close (value : Value) : UpValue :=
  UpValue.Closed value

/-- Call frame, from `src/vm.rs` (`struct CallFrame`).  The field
`up_values` is the frame-local list of handles to the open cells created
during this frame's execution. -/
structure CallFrame where
  ip : Nat
  top : Nat
  base : Nat
  results : Nat
  closure : Closure
  func : Func
  up_values : List Nat

/-- Creates the initial frame for a closure, from `src/vm.rs`
(`CallFrame::new`). -/
def CallFrame.new (closure : Closure) : CallFrame :=
  { ip := 0, top := 0, base := 0, results := 0,
    closure := closure, func := closure.func, up_values := [] }

/-- The VM state, from `src/vm.rs` (`struct Vm`): operand stack and call
stack, plus the explicit heap of up-value cells that models the shared
`Handle<UpValue>` allocations (a handle is an index into `cells`). -/
structure Vm where
  stack : List Value
  calls : List CallFrame
  cells : List UpValue

/-- Fresh VM, from `src/vm.rs` (`Vm::new`). -/
def Vm.new : Vm :=
  { stack := [], calls := [], cells := [] }

/-- Frame action returned by the instruction loop, from `src/vm.rs`
(`enum FrameAction`). -/
inductive FrameAction where
  | ret (start : Nat) (count : Nat)
  | call (base : Nat) (results : Nat)
deriving DecidableEq

/-- Relative jump, from `src/vm.rs` (`CallFrame::jump`): the source
computes `(self.ip as i64 + offset) as usize`; the `as usize` cast wraps
modulo `2 ^ 64`, which the reduction below reproduces. -/
def CallFrame.jump (frame : CallFrame) (offset : Int) : CallFrame :=
  { frame with ip := (((frame.ip : Int) + offset) % 18446744073709551616).toNat }

/-- Removes the last element of a list, returning it with the remainder;
models `Vec::pop` on the operand stack. -/
def popBack (l : List Value) : Option (Value × List Value) :=
  match l.getLast? with
  | none => none
  | some v => some (v, l.dropLast)

/-- Pops `n` values one at a time, models the loop of `Op::Pop` in
`src/vm.rs` (`run_op_loop`); `Vec::pop` on an empty vector is a no-op. -/
def popN (l : List Value) : Nat → List Value
  | 0 => l
  | n + 1 => popN l.dropLast n

/-- Pops the top of the stack and requires it to be an `Int`, from
`src/vm.rs` (`Vm::pop_int`).  The returned state reflects the mutation up
to the failure point: the pop happens before the type check. -/
def Vm.pop_int (vm : Vm) : Vm × Res Int :=
  match popBack vm.stack with
  | none => (vm, Res.err (runtime_err ("stack underflow")))
  | some (v, rest) =>
    let vm1 : Vm := { vm with stack := rest }
    match v.as_int with
    | none => (vm1, Res.err (runtime_err ("integer value expected")))
    | some i => (vm1, Res.ok i)

/-- Pops two `Int` operands `b` then `a`, from `src/vm.rs`
(`Vm::pop2_int`).  Each value is popped before it is type-checked, so on a
type mismatch the operands examined so far are already gone. -/
def Vm.pop2_int (vm : Vm) : Vm × Res (Int × Int) :=
  match popBack vm.stack with
  | none => (vm, Res.err (runtime_err ("stack underflow")))
  | some (vb, rest1) =>
    let vm1 : Vm := { vm with stack := rest1 }
    match vb.as_int with
    | none => (vm1, Res.err (runtime_err ("integer value expected")))
    | some b =>
      match popBack rest1 with
      | none => (vm1, Res.err (runtime_err ("stack underflow")))
      | some (va, rest2) =>
        let vm2 : Vm := { vm with stack := rest2 }
        match va.as_int with
        | none => (vm2, Res.err (runtime_err ("integer value expected")))
        | some a => (vm2, Res.ok (a, b))

/-- Pops two `Float` operands `b` then `a`, from `src/vm.rs`
(`Vm::pop2_float`); same pop-before-check order as `Vm.pop2_int`. -/
def Vm.pop2_float (vm : Vm) : Vm × Res (F64 × F64) :=
  match popBack vm.stack with
  | none => (vm, Res.err (runtime_err ("stack underflow")))
  | some (vb, rest1) =>
    let vm1 : Vm := { vm with stack := rest1 }
    match vb.as_float with
    | none => (vm1, Res.err (runtime_err ("float value expected")))
    | some b =>
      match popBack rest1 with
      | none => (vm1, Res.err (runtime_err ("stack underflow")))
      | some (va, rest2) =>
        let vm2 : Vm := { vm with stack := rest2 }
        match va.as_float with
        | none => (vm2, Res.err (runtime_err ("float value expected")))
        | some a => (vm2, Res.ok (a, b))

/-- Closes one up-value cell, from the loop in `Op::Return` of
`src/vm.rs`: a cell still `Open(offset)` receives a copy of
`stack[offset]` (a Rust index expression, so an out-of-range offset is a
panic); an already `Closed` cell is left alone. -/
def close_cell (vm : Vm) (id : Nat) : Vm × Res Unit :=
  match vm.cells[id]? with
  | none => (vm, Res.crash ("dangling up-value handle"))
  | some (UpValue.Closed _) => (vm, Res.ok ())
  | some (UpValue.Open stack_offset) =>
    match vm.stack[stack_offset]? with
    | none => (vm, Res.crash ("index out of bounds"))
    | some value => ({ vm with cells := vm.cells.set id (UpValue.close value) }, Res.ok ())

/-- Closes every cell in a frame-local handle list in order, from the
`frame.up_values.drain(..)` loop in `Op::Return` of `src/vm.rs`. -/
def close_up_values (vm : Vm) : List Nat → Vm × Res Unit
  | [] => (vm, Res.ok ())
  | id :: rest =>
    match close_cell vm id with
    | (vm1, Res.ok _) => close_up_values vm1 rest
    | (vm1, Res.err e) => (vm1, Res.err e)
    | (vm1, Res.crash m) => (vm1, Res.crash m)

/-- Builds the up-value vector of a new closure by walking the target
prototype's origin table in order, from the `CreateClosure` arm of
`src/vm.rs`.  `Parent i` allocates a fresh `Open (base + i)` cell whose
handle goes into both the closure vector (`acc`) and the frame-local list
(`frame_uvs`); `Outer j` copies the executing closure's handle at `j`
(a Rust index expression, so out of range is a panic).  Returns the final
heap, the frame-local list and the closure vector. -/
def capture_origins (base : Nat) (parent_uvs : List Nat) :
    Vm → List Nat → List Nat → List UpValueOrigin → Res (Vm × List Nat × List Nat)
  | vm, frame_uvs, acc, [] => Res.ok (vm, frame_uvs, acc)
  | vm, frame_uvs, acc, UpValueOrigin.Parent local_id :: rest =>
    let stack_offset := base + local_id
    let id := vm.cells.length
    let vm1 : Vm := { vm with cells := vm.cells ++ [UpValue.Open stack_offset] }
    capture_origins base parent_uvs vm1 (frame_uvs ++ [id]) (acc ++ [id]) rest
  | vm, frame_uvs, acc, UpValueOrigin.Outer upvalue_id :: rest =>
    match parent_uvs[upvalue_id]? with
    | none => Res.crash ("index out of bounds")
    | some id => capture_origins base parent_uvs vm frame_uvs (acc ++ [id]) rest

/-- Result of executing a single decoded instruction. -/
inductive StepOut where
  | next
  | action (a : FrameAction)
  | err (e : Error)
  | crash (m : String)

/-- Executes one decoded instruction: the body of the `match op` in
`run_op_loop` of `src/vm.rs`.  The frame passed in already has `ip`
advanced past the instruction, exactly as in the source.  Returns the
updated VM and frame together with the outcome; on `err`/`crash` the
returned state reflects mutations made before the failure. -/
def exec_op (vm : Vm) (frame : CallFrame) : Op → Vm × CallFrame × StepOut
  | Op.NoOp => (vm, frame, StepOut.next)
  | Op.Pop n => ({ vm with stack := popN vm.stack n.into_u32 }, frame, StepOut.next)
  | Op.End => (vm, frame, StepOut.action (FrameAction.ret 0 0))
  | Op.Return count =>
    match close_up_values vm frame.up_values with
    | (vm1, Res.ok _) =>
      let frame1 : CallFrame := { frame with up_values := [] }
      if frame.base + count ≤ vm1.stack.length then
        (vm1, frame1, StepOut.action (FrameAction.ret (vm1.stack.length - frame.base - count) count))
      else
        (vm1, frame1, StepOut.crash ("attempt to subtract with overflow"))
    | (vm1, Res.err e) => (vm1, frame, StepOut.err e)
    | (vm1, Res.crash m) => (vm1, frame, StepOut.crash m)
  | Op.Call base results =>
    (vm, frame, StepOut.action (FrameAction.call (frame.base + base) results))
  | Op.Load _ _ => (vm, frame, StepOut.crash ("not yet implemented"))
  | Op.Store _ _ => (vm, frame, StepOut.crash ("not yet implemented"))
  | Op.SetLocal slot =>
    match vm.stack.getLast? with
    | none => (vm, frame, StepOut.err (runtime_err ("stack underflow")))
    | some v =>
      if frame.base + slot < vm.stack.length then
        ({ vm with stack := vm.stack.set (frame.base + slot) v }, frame, StepOut.next)
      else
        (vm, frame, StepOut.crash ("index out of bounds"))
  | Op.GetLocal slot =>
    match vm.stack[frame.base + slot]? with
    | none => (vm, frame, StepOut.crash ("index out of bounds"))
    | some v => ({ vm with stack := vm.stack ++ [v] }, frame, StepOut.next)
  | Op.SetUpValue upvalue_id =>
    match popBack vm.stack with
    | none => (vm, frame, StepOut.err (runtime_err ("stack underflow")))
    | some (value, rest) =>
      let vm1 : Vm := { vm with stack := rest }
      match frame.closure.up_values[upvalue_id]? with
      | none => (vm1, frame, StepOut.err (runtime_err ("up-value not found")))
      | some cid =>
        match vm1.cells[cid]? with
        | none => (vm1, frame, StepOut.crash ("dangling up-value handle"))
        | some (UpValue.Open stack_offset) =>
          if stack_offset < vm1.stack.length then
            ({ vm1 with stack := vm1.stack.set stack_offset value }, frame, StepOut.next)
          else
            (vm1, frame, StepOut.crash ("index out of bounds"))
        | some (UpValue.Closed _) =>
          ({ vm1 with cells := vm1.cells.set cid (UpValue.Closed value) }, frame, StepOut.next)
  | Op.GetUpValue upvalue_id =>
    match frame.closure.up_values[upvalue_id]? with
    | none => (vm, frame, StepOut.err (runtime_err ("up-value not found")))
    | some cid =>
      match vm.cells[cid]? with
      | none => (vm, frame, StepOut.crash ("dangling up-value handle"))
      | some (UpValue.Open stack_offset) =>
        match vm.stack[stack_offset]? with
        | none => (vm, frame, StepOut.crash ("index out of bounds"))
        | some v => ({ vm with stack := vm.stack ++ [v] }, frame, StepOut.next)
      | some (UpValue.Closed v) =>
        ({ vm with stack := vm.stack ++ [v] }, frame, StepOut.next)
  | Op.SetGlobal _ => (vm, frame, StepOut.crash ("not yet implemented"))
  | Op.GetGlobal _ => (vm, frame, StepOut.crash ("not yet implemented"))
  | Op.PushIntIn v =>
    ({ vm with stack := vm.stack ++ [Value.int v.into_i64] }, frame, StepOut.next)
  | Op.PushInt const_id =>
    match frame.func.constants.ints[const_id.into_usize]? with
    | none =>
      (vm, frame, StepOut.err (runtime_err
        ("no integer constant defined: " ++ toString const_id.into_usize)))
    | some x => ({ vm with stack := vm.stack ++ [Value.int x] }, frame, StepOut.next)
  | Op.PushFloat _ => (vm, frame, StepOut.crash ("not yet implemented"))
  | Op.PushString _ => (vm, frame, StepOut.crash ("not yet implemented"))
  | Op.PushFunc const_id =>
    match frame.func.constants.funcs[const_id.into_usize]? with
    | none =>
      (vm, frame, StepOut.err (runtime_err
        ("no function found at constant " ++ toString const_id.into_usize)))
    | some f => ({ vm with stack := vm.stack ++ [Value.from_func f] }, frame, StepOut.next)
  | Op.CaptureValue _ => (vm, frame, StepOut.crash ("not yet implemented"))
  | Op.CreateClosure func_id =>
    match frame.func.constants.funcs[func_id.into_usize]? with
    | none => (vm, frame, StepOut.err (runtime_err ("constant not found")))
    | some func =>
      match capture_origins frame.base frame.closure.up_values vm frame.up_values [] func.up_values with
      | Res.err e => (vm, frame, StepOut.err e)
      | Res.crash m => (vm, frame, StepOut.crash m)
      | Res.ok (vm1, frame_uvs, upvalues) =>
        ({ vm1 with stack := vm1.stack ++ [Value.object (Object.closure (Closure.with_up_values func upvalues))] },
         { frame with up_values := frame_uvs }, StepOut.next)
  | Op.Int_Neg =>
    match vm.stack[frame.ip]? with
    | none => (vm, frame, StepOut.crash ("index out of bounds"))
    | some v =>
      match v.as_int with
      | none => (vm, frame, StepOut.err (runtime_err ("integer value expected")))
      | some a => ({ vm with stack := vm.stack.set frame.ip (Value.int (-a)) }, frame, StepOut.next)
  | Op.Int_Add =>
    match vm.pop2_int with
    | (vm1, Res.ok (a, b)) => ({ vm1 with stack := vm1.stack ++ [Value.int (a + b)] }, frame, StepOut.next)
    | (vm1, Res.err e) => (vm1, frame, StepOut.err e)
    | (vm1, Res.crash m) => (vm1, frame, StepOut.crash m)
  | Op.Int_Sub =>
    match vm.pop2_int with
    | (vm1, Res.ok (a, b)) => ({ vm1 with stack := vm1.stack ++ [Value.int (a - b)] }, frame, StepOut.next)
    | (vm1, Res.err e) => (vm1, frame, StepOut.err e)
    | (vm1, Res.crash m) => (vm1, frame, StepOut.crash m)
  | Op.Int_Mul =>
    match vm.pop2_int with
    | (vm1, Res.ok (a, b)) => ({ vm1 with stack := vm1.stack ++ [Value.int (a * b)] }, frame, StepOut.next)
    | (vm1, Res.err e) => (vm1, frame, StepOut.err e)
    | (vm1, Res.crash m) => (vm1, frame, StepOut.crash m)
  | Op.Int_Div =>
    match vm.pop2_int with
    | (vm1, Res.ok (a, b)) =>
      if b = 0 then (vm1, frame, StepOut.crash ("attempt to divide by zero"))
      else ({ vm1 with stack := vm1.stack ++ [Value.int (Int.tdiv a b)] }, frame, StepOut.next)
    | (vm1, Res.err e) => (vm1, frame, StepOut.err e)
    | (vm1, Res.crash m) => (vm1, frame, StepOut.crash m)
  | Op.Int_Mod =>
    match vm.pop2_int with
    | (vm1, Res.ok (a, b)) =>
      if b = 0 then
        (vm1, frame, StepOut.crash ("attempt to calculate the remainder with a divisor of zero"))
      else ({ vm1 with stack := vm1.stack ++ [Value.int (Int.tmod a b)] }, frame, StepOut.next)
    | (vm1, Res.err e) => (vm1, frame, StepOut.err e)
    | (vm1, Res.crash m) => (vm1, frame, StepOut.crash m)
  | Op.Int_Ne =>
    match vm.pop2_int with
    | (vm1, Res.ok (a, b)) =>
      ({ vm1 with stack := vm1.stack ++ [Value.from_bool (a ≠ b)] }, frame, StepOut.next)
    | (vm1, Res.err e) => (vm1, frame, StepOut.err e)
    | (vm1, Res.crash m) => (vm1, frame, StepOut.crash m)
  | Op.Int_Eq =>
    match vm.pop2_int with
    | (vm1, Res.ok (a, b)) =>
      ({ vm1 with stack := vm1.stack ++ [Value.from_bool (a = b)] }, frame, StepOut.next)
    | (vm1, Res.err e) => (vm1, frame, StepOut.err e)
    | (vm1, Res.crash m) => (vm1, frame, StepOut.crash m)
  | Op.Int_Lt =>
    match vm.pop2_int with
    | (vm1, Res.ok (a, b)) =>
      ({ vm1 with stack := vm1.stack ++ [Value.from_bool (a < b)] }, frame, StepOut.next)
    | (vm1, Res.err e) => (vm1, frame, StepOut.err e)
    | (vm1, Res.crash m) => (vm1, frame, StepOut.crash m)
  | Op.Int_Le =>
    match vm.pop2_int with
    | (vm1, Res.ok (a, b)) =>
      ({ vm1 with stack := vm1.stack ++ [Value.from_bool (a ≤ b)] }, frame, StepOut.next)
    | (vm1, Res.err e) => (vm1, frame, StepOut.err e)
    | (vm1, Res.crash m) => (vm1, frame, StepOut.crash m)
  | Op.Int_Gt =>
    match vm.pop2_int with
    | (vm1, Res.ok (a, b)) =>
      ({ vm1 with stack := vm1.stack ++ [Value.from_bool (b < a)] }, frame, StepOut.next)
    | (vm1, Res.err e) => (vm1, frame, StepOut.err e)
    | (vm1, Res.crash m) => (vm1, frame, StepOut.crash m)
  | Op.Int_Ge =>
    match vm.pop2_int with
    | (vm1, Res.ok (a, b)) =>
      ({ vm1 with stack := vm1.stack ++ [Value.from_bool (b ≤ a)] }, frame, StepOut.next)
    | (vm1, Res.err e) => (vm1, frame, StepOut.err e)
    | (vm1, Res.crash m) => (vm1, frame, StepOut.crash m)
  | Op.Float_Neg =>
    match vm.stack[frame.ip]? with
    | none => (vm, frame, StepOut.crash ("index out of bounds"))
    | some v =>
      match v.as_float with
      | none => (vm, frame, StepOut.err (runtime_err ("float value expected")))
      | some a =>
        ({ vm with stack := vm.stack.set frame.ip (Value.float (F64.neg a)) }, frame, StepOut.next)
  | Op.Float_Add =>
    match vm.pop2_float with
    | (vm1, Res.ok (a, b)) =>
      ({ vm1 with stack := vm1.stack ++ [Value.float (F64.add a b)] }, frame, StepOut.next)
    | (vm1, Res.err e) => (vm1, frame, StepOut.err e)
    | (vm1, Res.crash m) => (vm1, frame, StepOut.crash m)
  | Op.Float_Sub =>
    match vm.pop2_float with
    | (vm1, Res.ok (a, b)) =>
      ({ vm1 with stack := vm1.stack ++ [Value.float (F64.sub a b)] }, frame, StepOut.next)
    | (vm1, Res.err e) => (vm1, frame, StepOut.err e)
    | (vm1, Res.crash m) => (vm1, frame, StepOut.crash m)
  | Op.Float_Mul =>
    match vm.pop2_float with
    | (vm1, Res.ok (a, b)) =>
      ({ vm1 with stack := vm1.stack ++ [Value.float (F64.mul a b)] }, frame, StepOut.next)
    | (vm1, Res.err e) => (vm1, frame, StepOut.err e)
    | (vm1, Res.crash m) => (vm1, frame, StepOut.crash m)
  | Op.Float_Div =>
    match vm.pop2_float with
    | (vm1, Res.ok (a, b)) =>
      ({ vm1 with stack := vm1.stack ++ [Value.float (F64.div a b)] }, frame, StepOut.next)
    | (vm1, Res.err e) => (vm1, frame, StepOut.err e)
    | (vm1, Res.crash m) => (vm1, frame, StepOut.crash m)
  | Op.Float_Mod =>
    match vm.pop2_float with
    | (vm1, Res.ok (a, b)) =>
      ({ vm1 with stack := vm1.stack ++ [Value.float (F64.fmod a b)] }, frame, StepOut.next)
    | (vm1, Res.err e) => (vm1, frame, StepOut.err e)
    | (vm1, Res.crash m) => (vm1, frame, StepOut.crash m)
  | Op.Float_Ne =>
    match vm.pop2_float with
    | (vm1, Res.ok (a, b)) =>
      ({ vm1 with stack := vm1.stack ++ [Value.from_bool (F64.fne a b)] }, frame, StepOut.next)
    | (vm1, Res.err e) => (vm1, frame, StepOut.err e)
    | (vm1, Res.crash m) => (vm1, frame, StepOut.crash m)
  | Op.Float_Eq =>
    match vm.pop2_float with
    | (vm1, Res.ok (a, b)) =>
      ({ vm1 with stack := vm1.stack ++ [Value.from_bool (F64.feq a b)] }, frame, StepOut.next)
    | (vm1, Res.err e) => (vm1, frame, StepOut.err e)
    | (vm1, Res.crash m) => (vm1, frame, StepOut.crash m)
  | Op.Float_Lt =>
    match vm.pop2_float with
    | (vm1, Res.ok (a, b)) =>
      ({ vm1 with stack := vm1.stack ++ [Value.from_bool (F64.flt a b)] }, frame, StepOut.next)
    | (vm1, Res.err e) => (vm1, frame, StepOut.err e)
    | (vm1, Res.crash m) => (vm1, frame, StepOut.crash m)
  | Op.Float_Le =>
    match vm.pop2_float with
    | (vm1, Res.ok (a, b)) =>
      ({ vm1 with stack := vm1.stack ++ [Value.from_bool (F64.fle a b)] }, frame, StepOut.next)
    | (vm1, Res.err e) => (vm1, frame, StepOut.err e)
    | (vm1, Res.crash m) => (vm1, frame, StepOut.crash m)
  | Op.Float_Gt =>
    match vm.pop2_float with
    | (vm1, Res.ok (a, b)) =>
      ({ vm1 with stack := vm1.stack ++ [Value.from_bool (F64.fgt a b)] }, frame, StepOut.next)
    | (vm1, Res.err e) => (vm1, frame, StepOut.err e)
    | (vm1, Res.crash m) => (vm1, frame, StepOut.crash m)
  | Op.Float_Ge =>
    match vm.pop2_float with
    | (vm1, Res.ok (a, b)) =>
      ({ vm1 with stack := vm1.stack ++ [Value.from_bool (F64.fge a b)] }, frame, StepOut.next)
    | (vm1, Res.err e) => (vm1, frame, StepOut.err e)
    | (vm1, Res.crash m) => (vm1, frame, StepOut.crash m)
  | Op.Str_Concat => (vm, frame, StepOut.crash ("not yet implemented"))
  | Op.Str_Slice => (vm, frame, StepOut.crash ("not yet implemented"))
  | Op.JumpNe addr =>
    match vm.pop_int with
    | (vm1, Res.ok i) =>
      if i ≠ 0 then (vm1, frame.jump addr.into_i64, StepOut.next) else (vm1, frame, StepOut.next)
    | (vm1, Res.err e) => (vm1, frame, StepOut.err e)
    | (vm1, Res.crash m) => (vm1, frame, StepOut.crash m)
  | Op.JumpEq addr =>
    match vm.pop_int with
    | (vm1, Res.ok i) =>
      if i = 0 then (vm1, frame.jump addr.into_i64, StepOut.next) else (vm1, frame, StepOut.next)
    | (vm1, Res.err e) => (vm1, frame, StepOut.err e)
    | (vm1, Res.crash m) => (vm1, frame, StepOut.crash m)
  | Op.JumpLt addr =>
    match vm.pop_int with
    | (vm1, Res.ok i) =>
      if i < 0 then (vm1, frame.jump addr.into_i64, StepOut.next) else (vm1, frame, StepOut.next)
    | (vm1, Res.err e) => (vm1, frame, StepOut.err e)
    | (vm1, Res.crash m) => (vm1, frame, StepOut.crash m)
  | Op.JumpLe addr =>
    match vm.pop_int with
    | (vm1, Res.ok i) =>
      if i ≤ 0 then (vm1, frame.jump addr.into_i64, StepOut.next) else (vm1, frame, StepOut.next)
    | (vm1, Res.err e) => (vm1, frame, StepOut.err e)
    | (vm1, Res.crash m) => (vm1, frame, StepOut.crash m)
  | Op.JumpGt addr =>
    match vm.pop2_int with
    | (vm1, Res.ok (a, b)) =>
      if b < a then (vm1, frame.jump addr.into_i64, StepOut.next) else (vm1, frame, StepOut.next)
    | (vm1, Res.err e) => (vm1, frame, StepOut.err e)
    | (vm1, Res.crash m) => (vm1, frame, StepOut.crash m)
  | Op.JumpGe addr =>
    match vm.pop_int with
    | (vm1, Res.ok i) =>
      if 0 ≤ i then (vm1, frame.jump addr.into_i64, StepOut.next) else (vm1, frame, StepOut.next)
    | (vm1, Res.err e) => (vm1, frame, StepOut.err e)
    | (vm1, Res.crash m) => (vm1, frame, StepOut.crash m)
  | Op.JumpZero addr =>
    match vm.pop_int with
    | (vm1, Res.ok i) =>
      if i = 0 then (vm1, frame.jump addr.into_i64, StepOut.next) else (vm1, frame, StepOut.next)
    | (vm1, Res.err e) => (vm1, frame, StepOut.err e)
    | (vm1, Res.crash m) => (vm1, frame, StepOut.crash m)
  | Op.Jump addr => (vm, frame.jump addr.into_i64, StepOut.next)

/-- Outcome of `handle_return`/`handle_call`: the program finished, or
execution continues in the given frame, or it failed. -/
inductive HandleOut where
  | finished
  | cont (frame : CallFrame)
  | err (e : Error)
  | crash (m : String)

/-- Copies the callee's results down to its base, from the copy loop in
the `FrameAction::Return` arm of `run_interpreter` in `src/vm.rs`:
`stack[offset] = stack[start + offset]` for `offset` in
`0..result_count`, with indices relative to `frame.base` (the slice the
source takes).  The caller has already checked that all indices fall
inside the slice, so the `crash` branch is unreachable from
`handle_return`. -/
def copy_results (base start : Nat) : List Value → Nat → Nat → Res (List Value)
  | st, _, 0 => Res.ok st
  | st, offset, rem + 1 =>
    match st[base + start + offset]? with
    | none => Res.crash ("index out of bounds")
    | some v => copy_results base start (st.set (base + offset) v) (offset + 1) rem

/-- Handles `FrameAction::Return`, from `run_interpreter` in `src/vm.rs`:
the debug print indexes `stack[frame.base]` (a potential panic); at the
outermost frame the results are popped and the stack truncated to the
base; otherwise the arity is checked, `min(results, count)` values are
copied from the result window down to the base (erasing the callable),
the stack is truncated, and the caller frame is popped. -/
def handle_return (vm : Vm) (frame : CallFrame) (start count : Nat) : Vm × HandleOut :=
  match vm.stack[frame.base]? with
  | none => (vm, HandleOut.crash ("index out of bounds"))
  | some _ =>
    match vm.calls with
    | [] =>
      ({ vm with stack := (popN vm.stack count).take frame.base }, HandleOut.finished)
    | caller :: rest_calls =>
      if count < frame.results then
        (vm, HandleOut.err (runtime_err
          ("caller expected " ++ toString frame.results ++
           " results, but callee only returned " ++ toString count)))
      else
        let result_count := min frame.results count
        if frame.base + frame.func.stack_size ≤ vm.stack.length then
          if frame.func.stack_size < start + result_count then
            (vm, HandleOut.err (runtime_err ("returned results overflow stack")))
          else
            match copy_results frame.base start vm.stack 0 result_count with
            | Res.ok st =>
              ({ vm with stack := st.take (frame.base + result_count), calls := rest_calls },
               HandleOut.cont caller)
            | Res.err e => (vm, HandleOut.err e)
            | Res.crash m => (vm, HandleOut.crash m)
        else
          (vm, HandleOut.crash ("slice index out of range"))

/-- Handles `FrameAction::Call`, from `run_interpreter` in `src/vm.rs`:
reads the callable slot (a Rust index expression, so out of range is a
panic), requires it to be a closure, pushes the caller frame onto the
call stack and installs the callee frame. -/
def handle_call (vm : Vm) (frame : CallFrame) (callee_base results : Nat) : Vm × HandleOut :=
  match vm.stack[callee_base]? with
  | none => (vm, HandleOut.crash ("index out of bounds"))
  | some slot =>
    match slot.as_closure with
    | none => (vm, HandleOut.err (runtime_err ("closure value expected")))
    | some closure =>
      let new_frame : CallFrame :=
        { ip := 0, top := 1, base := callee_base, results := results,
          closure := closure, func := closure.func, up_values := [] }
      ({ vm with calls := frame :: vm.calls }, HandleOut.cont new_frame)

/-- Outcome of a bounded run of the interpreter. -/
inductive RunOut where
  | ok
  | err (e : Error)
  | crash (m : String)
  | fuelOut
deriving DecidableEq

/-- The interpreter loop, from `run_interpreter` and `run_op_loop` in
`src/vm.rs`, fused into one fuel-bounded function that executes one
instruction per step: fetch `code[ip]` (instruction pointer out of range
is a runtime error), advance `ip`, execute, and dispatch the frame action
through `handle_return`/`handle_call` when one is produced.  `fuelOut`
reports only that the fuel bound was reached. -/
def run_interpreter : Nat → Vm → CallFrame → Vm × RunOut
  | 0, vm, _ => (vm, RunOut.fuelOut)
  | fuel + 1, vm, frame =>
    match frame.func.code[frame.ip]? with
    | none => (vm, RunOut.err (runtime_err ("instruction pointer out of bytecode bounds")))
    | some op =>
      match exec_op vm { frame with ip := frame.ip + 1 } op with
      | (vm1, frame1, StepOut.next) => run_interpreter fuel vm1 frame1
      | (vm1, _, StepOut.err e) => (vm1, RunOut.err e)
      | (vm1, _, StepOut.crash m) => (vm1, RunOut.crash m)
      | (vm1, frame1, StepOut.action (FrameAction.ret start count)) =>
        match handle_return vm1 frame1 start count with
        | (vm2, HandleOut.finished) => (vm2, RunOut.ok)
        | (vm2, HandleOut.cont caller) => run_interpreter fuel vm2 caller
        | (vm2, HandleOut.err e) => (vm2, RunOut.err e)
        | (vm2, HandleOut.crash m) => (vm2, RunOut.crash m)
      | (vm1, frame1, StepOut.action (FrameAction.call base results)) =>
        match handle_call vm1 frame1 base results with
        | (vm2, HandleOut.finished) => (vm2, RunOut.ok)
        | (vm2, HandleOut.cont callee) => run_interpreter fuel vm2 callee
        | (vm2, HandleOut.err e) => (vm2, RunOut.err e)
        | (vm2, HandleOut.crash m) => (vm2, RunOut.crash m)

/-- Runs a function prototype, from `Vm::run_function` in `src/vm.rs`:
the prototype is wrapped in an up-value-free closure, the closure value
is pushed onto the operand stack, and the interpreter loop is entered
with a fresh outermost frame. -/
def Vm.run_function (fuel : Nat) (vm : Vm) (func : Func) : Vm × RunOut :=
  let closure := Closure.new func
  let frame := CallFrame.new closure
  let vm1 : Vm := { vm with stack := vm.stack ++ [Value.from_closure closure] }
  run_interpreter fuel vm1 frame

/-- Classifies the binary integer arithmetic/comparison opcodes, i.e. the
`run_op_loop` arms of `src/vm.rs` that fetch their operands through
`Vm::pop2_int`. -/
def is_int_bin_op : Op → Bool
  | Op.Int_Add | Op.Int_Sub | Op.Int_Mul | Op.Int_Div | Op.Int_Mod
  | Op.Int_Ne | Op.Int_Eq | Op.Int_Lt | Op.Int_Le | Op.Int_Gt | Op.Int_Ge => true
  | _ => false

/-- Classifies the binary float arithmetic/comparison opcodes, i.e. the
arms that fetch their operands through `Vm::pop2_float`. -/
def is_float_bin_op : Op → Bool
  | Op.Float_Add | Op.Float_Sub | Op.Float_Mul | Op.Float_Div | Op.Float_Mod
  | Op.Float_Ne | Op.Float_Eq | Op.Float_Lt | Op.Float_Le | Op.Float_Gt | Op.Float_Ge => true
  | _ => false

/-- Tests whether an up-value origin captures a parent local. -/
def UpValueOrigin.isParent : UpValueOrigin → Bool
  | UpValueOrigin.Parent _ => true
  | UpValueOrigin.Outer _ => false

/-- Builds an `Arg24` from the three little-endian bytes of a natural
number; concrete-program helper agreeing with `Arg24.from_u32`. -/
def a24 (n : Nat) : Arg24 :=
  { b0 := n % 256, b1 := n / 256 % 256, b2 := n / 65536 % 256 }

/-- Empty constant pools, for concrete test prototypes. -/
def emptyConsts : Constants Func :=
  { ints := [], floats := [], strings := [], funcs := [] }

/-- A trivial prototype used to populate frames in concrete states. -/
def emptyFunc : Func :=
  Func.mk [] 0 false emptyConsts []

/-- A generic frame for single-instruction concrete executions. -/
def scratchFrame : CallFrame :=
  CallFrame.new (Closure.new emptyFunc)

/-- Concrete program for C7: `1 / 0` on integers. -/
def divProg : Func :=
  Func.mk [Op.PushIntIn (a24 1), Op.PushIntIn (a24 0), Op.Int_Div, Op.End] 3 false emptyConsts []

/-- Concrete program for C7: `1 % 0` on integers. -/
def modProg : Func :=
  Func.mk [Op.PushIntIn (a24 1), Op.PushIntIn (a24 0), Op.Int_Mod, Op.End] 3 false emptyConsts []

/-- Concrete state for C7: two floats on the stack, divisor zero. -/
def c7fVm : Vm :=
  { stack := [Value.float (F64.finite 1), Value.float (F64.finite 0)], calls := [], cells := [] }

/-- Concrete state for C8: three integers on the stack; with `ip = 1` the
`Int_Neg` handler touches slot 1, not the top slot 2. -/
def c8Vm : Vm :=
  { stack := [Value.int 10, Value.int 20, Value.int 7], calls := [], cells := [] }

/-- Frame for C8 whose instruction pointer (already advanced past the
negation instruction) is 1. -/
def c8Frame : CallFrame :=
  { scratchFrame with ip := 1 }

/-- Concrete state for C8's float half: three floats on the stack. -/
def c8fVm : Vm :=
  { stack := [Value.float (F64.finite 1), Value.float (F64.finite 2), Value.float (F64.finite 3)],
    calls := [], cells := [] }

/-- Concrete state for C9: an `Int` under a `Float`; `Int_Add` pops the
float before discovering the mismatch. -/
def c9Vm : Vm :=
  { stack := [Value.int 1, Value.float (F64.finite 2)], calls := [], cells := [] }

/-- Callee for the C2 scenario: returns a single result. -/
def calleeC2 : Func :=
  Func.mk [Op.PushIntIn (a24 1), Op.Return 1] 3 false emptyConsts []

/-- Caller for the C2 scenario: expects two results from a callee that
returns one. -/
def topC2 : Func :=
  Func.mk [Op.PushIntIn (a24 7), Op.CreateClosure (a24 0), Op.Call 2 2, Op.End] 6 false
    { ints := [], floats := [], strings := [], funcs := [calleeC2] } []

/-- Inner prototype for the C5 scenario, capturing the enclosing frame's
local 1. -/
def innerC5 : Func :=
  Func.mk [Op.End] 2 false emptyConsts [UpValueOrigin.Parent 1]

/-- C5 scenario, `End` variant: pushes 42, creates a closure capturing it,
then executes `End`. -/
def topEndC5 : Func :=
  Func.mk [Op.PushIntIn (a24 42), Op.CreateClosure (a24 0), Op.End] 3 false
    { ints := [], floats := [], strings := [], funcs := [innerC5] } []

/-- C5 scenario, `Return 0` variant: identical to `topEndC5` except the
last instruction. -/
def topRetC5 : Func :=
  Func.mk [Op.PushIntIn (a24 42), Op.CreateClosure (a24 0), Op.Return 0] 3 false
    { ints := [], floats := [], strings := [], funcs := [innerC5] } []

/-- Concrete state for the C1 witness: a callee frame at base 1 about to
return one result. -/
def c1Vm : Vm :=
  { stack := [Value.int 9, Value.int 7, Value.int 5, Value.int 3],
    calls := [scratchFrame], cells := [] }

/-- Callee frame for the C1 witness: base 1, one expected result, a
prototype with `stack_size` 3. -/
def c1Frame : CallFrame :=
  { ip := 2, top := 0, base := 1, results := 1,
    closure := Closure.new (Func.mk [] 3 false emptyConsts []),
    func := Func.mk [] 3 false emptyConsts [], up_values := [] }

/-- Expected post-return state for the C1 witness. -/
def c1Vm' : Vm :=
  { stack := [Value.int 9, Value.int 3], calls := [], cells := [] }

/-- Concrete state for the C3 witness: one open cell captured by the
frame-local list. -/
def c3Vm : Vm :=
  { stack := [Value.int 42], calls := [], cells := [UpValue.Open 0] }

/-- Frame for the C3 witness holding handle 0 in its frame-local list. -/
def c3Frame : CallFrame :=
  { scratchFrame with up_values := [0] }

/-- Target prototype for the C4 witness: one parent capture and one
shared outer capture. -/
def c4Target : Func :=
  Func.mk [] 2 false emptyConsts [UpValueOrigin.Parent 1, UpValueOrigin.Outer 0]

/-- Host prototype for the C4 witness, holding the target as nested
function constant 0. -/
def c4Host : Func :=
  Func.mk [Op.CreateClosure (a24 0)] 4 false
    { ints := [], floats := [], strings := [], funcs := [c4Target] } []

/-- Concrete state for the C4 witness: three pre-existing heap cells. -/
def c4Vm : Vm :=
  { stack := [Value.int 1, Value.int 2], calls := [],
    cells := [UpValue.Open 0, UpValue.Closed (Value.int 5), UpValue.Open 1] }

/-- Frame for the C4 witness: base 10, executing closure with up-value
handle vector `[2]`. -/
def c4Frame : CallFrame :=
  { ip := 1, top := 0, base := 10, results := 0,
    closure := Closure.with_up_values c4Host [2], func := c4Host, up_values := [7] }

/-- Concrete state for the C2-amended and C5-amended witnesses: a callee
frame at base 0 with a pending caller. -/
def c2Vm : Vm :=
  { stack := [Value.int 4, Value.int 6], calls := [scratchFrame], cells := [] }

/-- Callee frame for the C2-amended witness expecting two results. -/
def c2Frame : CallFrame :=
  { scratchFrame with results := 2 }

/-- Concrete state for the C10 witness: a two-value stack to be emptied
by an oversized `Pop`. -/
def c10Vm : Vm :=
  { stack := [Value.int 1, Value.int 2], calls := [], cells := [] }

end Crow

namespace Crow

/-- Popping at least as many values as the stack holds empties it;
`Vec::pop` on an empty vector is a no-op, so no error arises. -/
theorem popN_of_length_le : ∀ (n : Nat) (l : List Value), l.length ≤ n → popN l n = []
  | 0, l, h => by
    cases l with
    | nil => rfl
    | cons a t => simp at h
  | n + 1, l, h => by
    have hlen : l.dropLast.length ≤ n := by
      simp only [List.length_dropLast]
      omega
    simpa only [popN] using popN_of_length_le n l.dropLast hlen

/-- C10.  Executing `Pop n` with `n` larger than the current operand
stack length leaves the stack empty and execution continues normally: the
pop loop calls `Vec::pop` on an already empty stack without raising any
error. -/
theorem crow_c10 (vm : Vm) (frame : CallFrame) (n : Arg24)
    (h : vm.stack.length < n.into_u32) :
    exec_op vm frame (Op.Pop n) = ({ vm with stack := [] }, frame, StepOut.next) := by
  simp only [exec_op]
  rw [popN_of_length_le n.into_u32 vm.stack (Nat.le_of_lt h)]

/-- Witness for C10 at a concrete two-value stack and `Pop 5`. -/
theorem crow_c10_witness :
    c10Vm.stack.length < (a24 5).into_u32 ∧
    exec_op c10Vm scratchFrame (Op.Pop (a24 5)) =
      ({ c10Vm with stack := [] }, scratchFrame, StepOut.next) :=
  ⟨by decide, crow_c10 c10Vm scratchFrame (a24 5) (by decide)⟩

/-- C7.  Integer division (and remainder) by zero does not produce a
`Runtime` error returned to the caller of `run_function`: the source
performs a raw Rust `/`/`%`, which panics.  Float division by zero, in
contrast, produces no error and pushes the IEEE 754 result (here `+inf`
for `1.0 / 0.0`). -/
theorem crow_c7_bug :
    (Vm.run_function 20 Vm.new divProg).2 = RunOut.crash ("attempt to divide by zero") ∧
    (Vm.run_function 20 Vm.new modProg).2 =
      RunOut.crash ("attempt to calculate the remainder with a divisor of zero") ∧
    exec_op c7fVm scratchFrame Op.Float_Div =
      ({ c7fVm with stack := [Value.float F64.posInf] }, scratchFrame, StepOut.next) :=
  ⟨rfl, rfl, rfl⟩

/-- C8.  `Int_Neg` (and `Float_Neg`) do not negate the top of the stack
in place: the handler indexes the operand stack with the instruction
pointer (`vm.stack[frame.ip]`).  At a concrete state with stack
`[10, 20, 7]` and `ip = 1` the handler negates slot 1 and leaves the top
slot 2 untouched; the float handler behaves the same way. -/
theorem crow_c8_bug :
    exec_op c8Vm c8Frame Op.Int_Neg =
      ({ c8Vm with stack := [Value.int 10, Value.int (-20), Value.int 7] }, c8Frame, StepOut.next) ∧
    exec_op c8fVm c8Frame Op.Float_Neg =
      ({ c8fVm with
          stack := [Value.float (F64.finite 1), Value.float (F64.finite (-2)),
                    Value.float (F64.finite 3)] }, c8Frame, StepOut.next) :=
  ⟨rfl, rfl⟩

/-- Counterexample to C5 as stated: running the same program once with a
final `End` and once with a final `Return 0` produces different effects.
`End` leaves the closure's captured cell `Open`, while `Return 0` closes
it to `Closed 42`; hence `End` is not equivalent to `Return 0` with
respect to the closing of open up-value cells. -/
theorem crow_c5_counterexample :
    (Vm.run_function 10 Vm.new topEndC5).2 = RunOut.ok ∧
    (Vm.run_function 10 Vm.new topEndC5).1.cells = [UpValue.Open 1] ∧
    (Vm.run_function 10 Vm.new topRetC5).2 = RunOut.ok ∧
    (Vm.run_function 10 Vm.new topRetC5).1.cells = [UpValue.Closed (Value.int 42)] :=
  ⟨rfl, rfl, rfl, rfl⟩

/-- C5 (amended).  `End` produces the frame action `Return{start 0,
count 0}` with the VM state completely untouched — in particular it does
not close the frame's open up-value cells — while `Return 0` first closes
every cell in the frame-local list, drains that list, and reports result
window start `stack_len - base`.  At the outermost frame both terminate
normally (the zero-count return path of `handle_return`). -/
theorem crow_c5_amended :
    (∀ (vm : Vm) (frame : CallFrame),
      exec_op vm frame Op.End = (vm, frame, StepOut.action (FrameAction.ret 0 0))) ∧
    (∀ (vm vm1 : Vm) (frame : CallFrame),
      close_up_values vm frame.up_values = (vm1, Res.ok ()) →
      frame.base ≤ vm1.stack.length →
      exec_op vm frame (Op.Return 0) =
        (vm1, { frame with up_values := [] },
         StepOut.action (FrameAction.ret (vm1.stack.length - frame.base) 0))) := by
  constructor
  · intro vm frame
    rfl
  · intro vm vm1 frame hclose hbase
    simp only [exec_op, hclose]
    rw [if_pos (by omega), Nat.sub_zero]

/-- Witness for C5 (amended) at a concrete state with an empty
frame-local list. -/
theorem crow_c5_amended_witness :
    close_up_values c2Vm scratchFrame.up_values = (c2Vm, Res.ok ()) ∧
    scratchFrame.base ≤ c2Vm.stack.length ∧
    exec_op c2Vm scratchFrame Op.End = (c2Vm, scratchFrame, StepOut.action (FrameAction.ret 0 0)) ∧
    exec_op c2Vm scratchFrame (Op.Return 0) =
      (c2Vm, { scratchFrame with up_values := [] },
       StepOut.action (FrameAction.ret (c2Vm.stack.length - scratchFrame.base) 0)) :=
  ⟨rfl, by decide, crow_c5_amended.1 c2Vm scratchFrame,
   crow_c5_amended.2 c2Vm c2Vm scratchFrame rfl (by decide)⟩

/-- Counterexample to C2 as stated: in a run where a caller expecting 2
results receives only 1, the error message is "caller expected 2 results,
but callee only returned 1" — not the claimed "caller expected 2 results,
callee returned 1" — and the operand stack is not truncated to the
caller's pre-call state: it still holds all 4 values the callee left
(the caller's pre-call stack had 3). -/
theorem crow_c2_counterexample :
    (Vm.run_function 20 Vm.new topC2).2 =
      RunOut.err (runtime_err ("caller expected 2 results, but callee only returned 1")) ∧
    (Vm.run_function 20 Vm.new topC2).1.stack.length = 4 ∧
    (Vm.run_function 20 Vm.new topC2).2 ≠
      RunOut.err (runtime_err ("caller expected 2 results, callee returned 1")) :=
  ⟨rfl, rfl, by decide⟩

end Crow

namespace Crow

/-- C2 (amended).  When a caller expects more results than the callee
returned (non-outermost return), `handle_return` produces a `Runtime`
error whose message is "caller expected k results, but callee only
returned n", and the VM state — in particular the operand stack — is left
completely unchanged: nothing is truncated back to the caller's pre-call
state. -/
theorem crow_c2_amended (vm : Vm) (frame : CallFrame) (start count : Nat)
    (caller : CallFrame) (rest : List CallFrame)
    (hcalls : vm.calls = caller :: rest)
    (hlt : count < frame.results)
    (hbase : frame.base < vm.stack.length) :
    handle_return vm frame start count =
      (vm, HandleOut.err (runtime_err
        ("caller expected " ++ toString frame.results ++
         " results, but callee only returned " ++ toString count))) := by
  cases hx : vm.stack[frame.base]? with
  | none =>
    rw [List.getElem?_eq_none_iff] at hx
    omega
  | some v =>
    simp only [handle_return, hx, hcalls]
    rw [if_pos hlt]

/-- Witness for C2 (amended) at a concrete callee frame expecting two
results while one was returned. -/
theorem crow_c2_amended_witness :
    c2Vm.calls = scratchFrame :: [] ∧ 1 < c2Frame.results ∧ c2Frame.base < c2Vm.stack.length ∧
    handle_return c2Vm c2Frame 0 1 =
      (c2Vm, HandleOut.err (runtime_err
        ("caller expected " ++ toString c2Frame.results ++
         " results, but callee only returned " ++ toString 1))) :=
  ⟨rfl, by decide, by decide,
   crow_c2_amended c2Vm c2Frame 0 1 scratchFrame [] rfl (by decide) (by decide)⟩

/-- Popping the single appended value of a stack. -/
theorem popBack_concat (s : List Value) (v : Value) : popBack (s ++ [v]) = some (v, s) := by
  simp [popBack, List.getLast?_concat, List.dropLast_concat]

/-- `Vm::pop2_int` when the first popped operand is not an `Int`: the
operand has already been popped when the mismatch is discovered. -/
theorem pop2_int_top_mismatch (vm : Vm) (s : List Value) (v : Value)
    (hstack : vm.stack = s ++ [v]) (hv : v.as_int = none) :
    vm.pop2_int = ({ vm with stack := s }, Res.err (runtime_err ("integer value expected"))) := by
  simp only [Vm.pop2_int, hstack, popBack_concat, hv]

/-- Reduction of `Value.as_int` on an integer value. -/
theorem as_int_int (b : Int) : (Value.int b).as_int = some b := rfl

/-- Reduction of `Value.as_float` on a float value. -/
theorem as_float_float (b : F64) : (Value.float b).as_float = some b := rfl

/-- `Vm::pop2_int` when the second popped operand is not an `Int`: both
operands have been popped when the mismatch is discovered. -/
theorem pop2_int_second_mismatch (vm : Vm) (s : List Value) (va : Value) (b : Int)
    (hstack : vm.stack = s ++ [va, Value.int b]) (hva : va.as_int = none) :
    vm.pop2_int = ({ vm with stack := s }, Res.err (runtime_err ("integer value expected"))) := by
  have h2 : s ++ [va, Value.int b] = (s ++ [va]) ++ [Value.int b] := by simp
  simp only [Vm.pop2_int, hstack, h2, popBack_concat, as_int_int, hva]

/-- `Vm::pop2_float` when the first popped operand is not a `Float`. -/
theorem pop2_float_top_mismatch (vm : Vm) (s : List Value) (v : Value)
    (hstack : vm.stack = s ++ [v]) (hv : v.as_float = none) :
    vm.pop2_float = ({ vm with stack := s }, Res.err (runtime_err ("float value expected"))) := by
  simp only [Vm.pop2_float, hstack, popBack_concat, hv]

/-- `Vm::pop2_float` when the second popped operand is not a `Float`. -/
theorem pop2_float_second_mismatch (vm : Vm) (s : List Value) (va : Value) (b : F64)
    (hstack : vm.stack = s ++ [va, Value.float b]) (hva : va.as_float = none) :
    vm.pop2_float = ({ vm with stack := s }, Res.err (runtime_err ("float value expected"))) := by
  have h2 : s ++ [va, Value.float b] = (s ++ [va]) ++ [Value.float b] := by simp
  simp only [Vm.pop2_float, hstack, h2, popBack_concat, as_float_float, hva]

/-- Counterexample to C9 as stated: `Int_Add` on the stack
`[Int 1, Float 2.0]` produces the type-mismatch `Runtime` error, but the
stack length at the moment the error is produced is 1, not the entry
length 2 — the mismatched operand was popped before it was checked. -/
theorem crow_c9_counterexample :
    exec_op c9Vm scratchFrame Op.Int_Add =
      ({ c9Vm with stack := [Value.int 1] }, scratchFrame,
       StepOut.err (runtime_err ("integer value expected"))) ∧
    c9Vm.stack.length = 2 ∧
    ({ c9Vm with stack := [Value.int 1] } : Vm).stack.length ≠ c9Vm.stack.length :=
  ⟨rfl, rfl, by decide⟩

/-- C9 (amended).  Every binary integer (resp. float) arithmetic or
comparison opcode applied to operands of the wrong kind produces a
`Runtime` type-mismatch error, but the operands popped before the
mismatch was found are lost: if the first popped operand has the wrong
kind the stack is one shorter than at entry, and if it is well-typed but
the second is not, the stack is two shorter. -/
theorem crow_c9_amended :
    (∀ (vm : Vm) (frame : CallFrame) (op : Op) (s : List Value) (v : Value),
      is_int_bin_op op = true → vm.stack = s ++ [v] → v.as_int = none →
      exec_op vm frame op =
        ({ vm with stack := s }, frame, StepOut.err (runtime_err ("integer value expected")))) ∧
    (∀ (vm : Vm) (frame : CallFrame) (op : Op) (s : List Value) (va : Value) (b : Int),
      is_int_bin_op op = true → vm.stack = s ++ [va, Value.int b] → va.as_int = none →
      exec_op vm frame op =
        ({ vm with stack := s }, frame, StepOut.err (runtime_err ("integer value expected")))) ∧
    (∀ (vm : Vm) (frame : CallFrame) (op : Op) (s : List Value) (v : Value),
      is_float_bin_op op = true → vm.stack = s ++ [v] → v.as_float = none →
      exec_op vm frame op =
        ({ vm with stack := s }, frame, StepOut.err (runtime_err ("float value expected")))) ∧
    (∀ (vm : Vm) (frame : CallFrame) (op : Op) (s : List Value) (va : Value) (b : F64),
      is_float_bin_op op = true → vm.stack = s ++ [va, Value.float b] → va.as_float = none →
      exec_op vm frame op =
        ({ vm with stack := s }, frame, StepOut.err (runtime_err ("float value expected")))) := by
  refine ⟨?_, ?_, ?_, ?_⟩
  · intro vm frame op s v hop hstack hv
    have hp := pop2_int_top_mismatch vm s v hstack hv
    cases op <;> simp only [is_int_bin_op, Bool.false_eq_true] at hop <;> simp only [exec_op, hp]
  · intro vm frame op s va b hop hstack hva
    have hp := pop2_int_second_mismatch vm s va b hstack hva
    cases op <;> simp only [is_int_bin_op, Bool.false_eq_true] at hop <;> simp only [exec_op, hp]
  · intro vm frame op s v hop hstack hv
    have hp := pop2_float_top_mismatch vm s v hstack hv
    cases op <;> simp only [is_float_bin_op, Bool.false_eq_true] at hop <;> simp only [exec_op, hp]
  · intro vm frame op s va b hop hstack hva
    have hp := pop2_float_second_mismatch vm s va b hstack hva
    cases op <;> simp only [is_float_bin_op, Bool.false_eq_true] at hop <;> simp only [exec_op, hp]

/-- Witness for C9 (amended): `Int_Add` applied to `[Int 1, Float 2.0]`. -/
theorem crow_c9_amended_witness :
    is_int_bin_op Op.Int_Add = true ∧
    c9Vm.stack = [Value.int 1] ++ [Value.float (F64.finite 2)] ∧
    (Value.float (F64.finite 2)).as_int = none ∧
    exec_op c9Vm scratchFrame Op.Int_Add =
      ({ c9Vm with stack := [Value.int 1] }, scratchFrame,
       StepOut.err (runtime_err ("integer value expected"))) :=
  ⟨rfl, rfl, rfl,
   crow_c9_amended.1 c9Vm scratchFrame Op.Int_Add [Value.int 1] (Value.float (F64.finite 2))
     rfl rfl rfl⟩

end Crow

namespace Crow

/-- Recomposing the three little-endian bytes of a natural number yields
its residue modulo `2 ^ 24`. -/
theorem bytes_recompose (t : Nat) :
    t % 256 + 256 * (t / 256 % 256) + 65536 * (t / 65536 % 256) = t % 16777216 := by
  omega

/-- Decoding the three low bytes of the two's-complement representation
of an in-range value recovers the value: the byte recomposition is the
residue modulo `2 ^ 24` and the shift-based sign extension undoes it. -/
theorem into_i64_toNat64 (i : Int) (h1 : -8388608 ≤ i) (h2 : i < 8388608) :
    Arg24.into_i64
      { b0 := toNat64 i % 256, b1 := toNat64 i / 256 % 256, b2 := toNat64 i / 65536 % 256 } = i := by
  have hb := bytes_recompose (toNat64 i)
  have htt : (toNat64 i : Int) = i % 18446744073709551616 := by
    simp only [toNat64]
    omega
  simp only [Arg24.into_i64]
  rw [hb]
  by_cases hc : toNat64 i % 16777216 * 1099511627776 < 9223372036854775808
  · rw [if_pos hc]
    push_cast
    omega
  · rw [if_neg hc]
    push_cast
    omega

/-- Counterexample to C6 as stated: encoding the unsigned input
`2 ^ 24 = 16777216`, which lies outside `[0, 2 ^ 24)`, does not fail with
an encode-time error — `Arg24::from_u32` performs no range check, returns
`Ok` and silently truncates to the low 24 bits (here to 0). -/
theorem crow_c6_counterexample :
    Arg24.from_u32 16777216 = Res.ok { b0 := 0, b1 := 0, b2 := 0 } ∧
    Arg24.into_u32 { b0 := 0, b1 := 0, b2 := 0 } = 0 :=
  ⟨rfl, rfl⟩

/-- C6 (amended).  Signed round-trip: for every `i ∈ [-2 ^ 23, 2 ^ 23)`,
`from_i64` succeeds and `into_i64` decodes the result back to `i`
(the bounds `MAX_ARG_24`/`MIN_ARG24` are spec-modelled, `limits.rs` being
absent from the sources); outside that range `from_i64` fails with an
encode-time `Runtime` error.  Unsigned inputs, however, are never
range-checked: `from_u32` always succeeds and truncates its argument to
the low 24 bits. -/
theorem crow_c6_amended :
    (∀ i : Int, -8388608 ≤ i → i < 8388608 →
      ∃ x, Arg24.from_i64 i = Res.ok x ∧ x.into_i64 = i) ∧
    (∀ i : Int, i < -8388608 ∨ 8388608 ≤ i →
      ∃ e, Arg24.from_i64 i = Res.err e ∧ e.kind = ErrorKind.runtime) ∧
    (∀ v : Nat, ∃ x, Arg24.from_u32 v = Res.ok x ∧ x.into_u32 = v % 16777216) := by
  refine ⟨?_, ?_, ?_⟩
  · intro i h1 h2
    have hmax : ¬ (MAX_ARG_24 ≤ i) := by
      simp only [MAX_ARG_24]
      omega
    have hmin : ¬ (i ≤ MIN_ARG24) := by
      simp only [MIN_ARG24]
      omega
    refine ⟨_, ?_, into_i64_toNat64 i h1 h2⟩
    simp only [Arg24.from_i64]
    rw [if_neg hmax, if_neg hmin]
  · intro i h
    rcases h with h | h
    · have hmax : ¬ (MAX_ARG_24 ≤ i) := by
        simp only [MAX_ARG_24]
        omega
      have hmin : i ≤ MIN_ARG24 := by
        simp only [MIN_ARG24]
        omega
      refine ⟨runtime_err ("value is too small to fit in 24 bits"), ?_, rfl⟩
      simp only [Arg24.from_i64]
      rw [if_neg hmax, if_pos hmin]
    · have hmax : MAX_ARG_24 ≤ i := by
        simp only [MAX_ARG_24]
        omega
      refine ⟨runtime_err ("value is too large to fit in 24 bits"), ?_, rfl⟩
      simp only [Arg24.from_i64]
      rw [if_pos hmax]
  · intro v
    refine ⟨_, rfl, ?_⟩
    simp only [Arg24.into_u32]
    exact bytes_recompose v

/-- Witness for C6 (amended): round-trip at `-5`, encode failures at
`8388608` and `-8388609`, and the unchecked unsigned encoder at
`2 ^ 24 + 3`. -/
theorem crow_c6_amended_witness :
    (-8388608 ≤ (-5 : Int) ∧ (-5 : Int) < 8388608 ∧
      ∃ x, Arg24.from_i64 (-5) = Res.ok x ∧ x.into_i64 = -5) ∧
    (∃ e, Arg24.from_i64 8388608 = Res.err e ∧ e.kind = ErrorKind.runtime) ∧
    (∃ x, Arg24.from_u32 16777219 = Res.ok x ∧ x.into_u32 = 16777219 % 16777216) :=
  ⟨⟨by decide, by decide, crow_c6_amended.1 (-5) (by decide) (by decide)⟩,
   crow_c6_amended.2.1 8388608 (Or.inr (by decide)),
   crow_c6_amended.2.2 16777219⟩

end Crow

namespace Crow

/-- `Vm::pop_int` never touches the cell heap. -/
theorem pop_int_cells (vm : Vm) : (Vm.pop_int vm).1.cells = vm.cells := by
  simp only [Vm.pop_int]
  repeat' split
  all_goals rfl

/-- `Vm::pop2_int` never touches the cell heap. -/
theorem pop2_int_cells (vm : Vm) : (Vm.pop2_int vm).1.cells = vm.cells := by
  simp only [Vm.pop2_int]
  repeat' split
  all_goals rfl

/-- `Vm::pop2_float` never touches the cell heap. -/
theorem pop2_float_cells (vm : Vm) : (Vm.pop2_float vm).1.cells = vm.cells := by
  simp only [Vm.pop2_float]
  repeat' split
  all_goals rfl

/-- `capture_origins` only appends to the cell heap. -/
theorem capture_origins_cells_grow (base : Nat) (puvs : List Nat) :
    ∀ (origins : List UpValueOrigin) (vm : Vm) (fuvs acc : List Nat)
      (vm' : Vm) (fuvs' acc' : List Nat),
      capture_origins base puvs vm fuvs acc origins = Res.ok (vm', fuvs', acc') →
      ∃ ext, vm'.cells = vm.cells ++ ext
  | [], vm, fuvs, acc, vm', fuvs', acc', h => by
    simp only [capture_origins, Res.ok.injEq, Prod.mk.injEq] at h
    obtain ⟨h1, -, -⟩ := h
    subst h1
    exact ⟨[], by simp⟩
  | UpValueOrigin.Parent i :: rest, vm, fuvs, acc, vm', fuvs', acc', h => by
    simp only [capture_origins] at h
    obtain ⟨ext, hext⟩ := capture_origins_cells_grow base puvs rest _ _ _ _ _ _ h
    refine ⟨UpValue.Open (base + i) :: ext, ?_⟩
    rw [hext]
    simp
  | UpValueOrigin.Outer j :: rest, vm, fuvs, acc, vm', fuvs', acc', h => by
    simp only [capture_origins] at h
    cases hj : puvs[j]? with
    | none =>
      rw [hj] at h
      cases h
    | some id =>
      rw [hj] at h
      exact capture_origins_cells_grow base puvs rest _ _ _ _ _ _ h

/-- What a successful `close_cell` guarantees: stack and call stack are
untouched, the addressed cell ends up `Closed`; when it was
`Open offset` it is closed with exactly the value read from
`stack[offset]`; a `Closed` cell keeps its value, and every other cell
is untouched. -/
theorem close_cell_ok (vm vm1 : Vm) (id : Nat) (h : close_cell vm id = (vm1, Res.ok ())) :
    vm1.stack = vm.stack ∧ vm1.calls = vm.calls ∧
    (∃ v, vm1.cells[id]? = some (UpValue.Closed v)) ∧
    (∀ off : Nat, vm.cells[id]? = some (UpValue.Open off) →
      ∃ v, vm.stack[off]? = some v ∧ vm1.cells[id]? = some (UpValue.Closed v)) ∧
    (∀ w : Value, vm.cells[id]? = some (UpValue.Closed w) →
      vm1.cells[id]? = some (UpValue.Closed w)) ∧
    (∀ j : Nat, j ≠ id → vm1.cells[j]? = vm.cells[j]?) := by
  simp only [close_cell] at h
  split at h
  · cases h
  · next w heq =>
    simp only [Prod.mk.injEq] at h
    obtain ⟨h1, -⟩ := h
    subst h1
    refine ⟨rfl, rfl, ⟨w, heq⟩, ?_, ?_, fun j hj => rfl⟩
    · intro off hoff
      rw [heq] at hoff
      cases hoff
    · intro w' hw'
      exact hw'
  · next so heq =>
    split at h
    · cases h
    · next val hval =>
      simp only [Prod.mk.injEq] at h
      obtain ⟨h1, -⟩ := h
      subst h1
      have hlt : id < vm.cells.length := by
        by_contra hh
        rw [List.getElem?_eq_none_iff.mpr (by omega)] at heq
        cases heq
      have hset : (vm.cells.set id (UpValue.close val))[id]? = some (UpValue.Closed val) := by
        simpa [UpValue.close] using List.getElem?_set_self hlt
      refine ⟨rfl, rfl, ⟨val, hset⟩, ?_, ?_, ?_⟩
      · intro off hoff
        rw [heq] at hoff
        simp only [Option.some.injEq, UpValue.Open.injEq] at hoff
        subst hoff
        exact ⟨val, hval, hset⟩
      · intro w' hw'
        rw [heq] at hw'
        cases hw'
      · intro j hj
        rw [List.getElem?_set_ne (by omega : id ≠ j)]

/-- What a successful `close_up_values` guarantees: stack and call stack
are untouched; every cell in the list ends up `Closed`; every cell in
the list that was still `Open offset` is closed with exactly the value
read from `stack[offset]`; and `Closed` cells keep their value. -/
theorem close_up_values_spec : ∀ (ids : List Nat) (vm vm' : Vm),
    close_up_values vm ids = (vm', Res.ok ()) →
    vm'.stack = vm.stack ∧ vm'.calls = vm.calls ∧
    (∀ id, id ∈ ids → ∃ v, vm'.cells[id]? = some (UpValue.Closed v)) ∧
    (∀ (id off : Nat), id ∈ ids → vm.cells[id]? = some (UpValue.Open off) →
      ∃ v, vm.stack[off]? = some v ∧ vm'.cells[id]? = some (UpValue.Closed v)) ∧
    (∀ (id : Nat) (w : Value), vm.cells[id]? = some (UpValue.Closed w) →
      vm'.cells[id]? = some (UpValue.Closed w))
  | [], vm, vm', h => by
    simp only [close_up_values, Prod.mk.injEq] at h
    obtain ⟨h1, -⟩ := h
    subst h1
    refine ⟨rfl, rfl, ?_, ?_, fun id w hw => hw⟩
    · intro id hmem
      simp at hmem
    · intro id off hmem
      simp at hmem
  | id0 :: rest, vm, vm', h => by
    simp only [close_up_values] at h
    cases hcc : close_cell vm id0 with
    | mk vm1 r =>
      rw [hcc] at h
      cases r with
      | ok u =>
        cases u
        obtain ⟨hs1, hc1, ⟨v1, hv1⟩, hopen1, hclosed1, hother1⟩ := close_cell_ok vm vm1 id0 hcc
        obtain ⟨hs, hc, hall, hopen, hpres⟩ := close_up_values_spec rest vm1 vm' h
        refine ⟨hs.trans hs1, hc.trans hc1, ?_, ?_, ?_⟩
        · intro j hmem
          rcases List.mem_cons.mp hmem with hj | hj
          · subst hj
            exact ⟨v1, hpres j v1 hv1⟩
          · exact hall j hj
        · intro j off hmem hjopen
          by_cases hji : j = id0
          · subst hji
            obtain ⟨v, hsv, hcell1⟩ := hopen1 off hjopen
            exact ⟨v, hsv, hpres j v hcell1⟩
          · have hmem' : j ∈ rest := by
              rcases List.mem_cons.mp hmem with hj | hj
              · exact absurd hj hji
              · exact hj
            have h1 : vm1.cells[j]? = some (UpValue.Open off) := by
              rw [hother1 j hji]
              exact hjopen
            obtain ⟨v, hsv, hcell⟩ := hopen j off hmem' h1
            refine ⟨v, ?_, hcell⟩
            rw [← hs1]
            exact hsv
        · intro j w hw
          by_cases hji : j = id0
          · subst hji
            exact hpres j w (hclosed1 w hw)
          · refine hpres j w ?_
            rw [hother1 j hji]
            exact hw
      | err e => cases h
      | crash m => cases h

/-- C3.  Up-value cells are closed by `Return` and only by `Return`:
(1) a `Return{count}` that produces a frame action has closed every cell
in the frame-local list (which, since cells are only ever appended by
`CreateClosure` and only drained here, holds every cell ever pushed) and
drained the list, so every such cell is `Closed` when the frame is
popped; in particular every listed cell still `Open offset` is
transitioned to `Closed v` where `v` is exactly the value read from
`stack[offset]`;
(2) no other instruction ever transitions a cell from `Open` to `Closed`;
(3) neither `handle_return` nor `handle_call` (the frame pop itself)
touches the cell heap. -/
theorem crow_c3 :
    (∀ (vm : Vm) (frame : CallFrame) (count : Nat) (vm' : Vm) (frame' : CallFrame)
        (a : FrameAction),
      exec_op vm frame (Op.Return count) = (vm', frame', StepOut.action a) →
      (∀ id, id ∈ frame.up_values → ∃ v, vm'.cells[id]? = some (UpValue.Closed v)) ∧
      (∀ (id off : Nat), id ∈ frame.up_values →
        vm.cells[id]? = some (UpValue.Open off) →
        ∃ v, vm.stack[off]? = some v ∧ vm'.cells[id]? = some (UpValue.Closed v)) ∧
      frame'.up_values = []) ∧
    (∀ (vm : Vm) (frame : CallFrame) (op : Op),
      (∀ c, op ≠ Op.Return c) →
      ∀ (id off : Nat), vm.cells[id]? = some (UpValue.Open off) →
      ((exec_op vm frame op).1).cells[id]? = some (UpValue.Open off)) ∧
    (∀ (vm : Vm) (frame : CallFrame) (start count : Nat),
      (handle_return vm frame start count).1.cells = vm.cells) ∧
    (∀ (vm : Vm) (frame : CallFrame) (base results : Nat),
      (handle_call vm frame base results).1.cells = vm.cells) := by
  refine ⟨?_, ?_, ?_, ?_⟩
  · intro vm frame count vm' frame' a hexec
    simp only [exec_op] at hexec
    split at hexec
    next vm1 u heq =>
      split at hexec
      next hif =>
        simp only [Prod.mk.injEq] at hexec
        obtain ⟨h1, h2, -⟩ := hexec
        subst h1
        subst h2
        obtain ⟨-, -, hall, hopen, -⟩ := close_up_values_spec frame.up_values vm vm1 heq
        exact ⟨hall, hopen, rfl⟩
      next hif => simp at hexec
    next vm1 e heq => simp at hexec
    next vm1 m heq => simp at hexec
  · intro vm frame op hne id off hid
    have hlt : id < vm.cells.length := by
      by_contra hh
      rw [List.getElem?_eq_none_iff.mpr (by omega)] at hid
      cases hid
    cases op
    case Return count => exact absurd rfl (hne count)
    case SetUpValue uid =>
      simp only [exec_op]
      cases hpb : popBack vm.stack with
      | none => simpa using hid
      | some p =>
        obtain ⟨value, rest⟩ := p
        cases huv : frame.closure.up_values[uid]? with
        | none => simpa [hpb] using hid
        | some cid =>
          cases hcell : vm.cells[cid]? with
          | none => simpa [hpb, huv, hcell] using hid
          | some cell =>
            cases cell with
            | Open so =>
              by_cases hso : so < rest.length
              · simpa [hpb, huv, hcell, hso] using hid
              · simpa [hpb, huv, hcell, hso] using hid
            | Closed w =>
              have hne2 : cid ≠ id := by
                intro hh
                rw [hh, hid] at hcell
                cases hcell
              simpa [hpb, huv, hcell, List.getElem?_set_ne hne2] using hid
    case CreateClosure fid =>
      simp only [exec_op]
      cases hfn : frame.func.constants.funcs[fid.into_usize]? with
      | none => simpa [hfn] using hid
      | some target =>
        cases hcap : capture_origins frame.base frame.closure.up_values vm
            frame.up_values [] target.up_values with
        | err e => simpa [hfn, hcap] using hid
        | crash m => simpa [hfn, hcap] using hid
        | ok triple =>
          obtain ⟨vm1, fuvs, uvs⟩ := triple
          obtain ⟨ext, hext⟩ :=
            capture_origins_cells_grow frame.base frame.closure.up_values
              target.up_values vm frame.up_values [] vm1 fuvs uvs hcap
          have hpre : vm1.cells[id]? = some (UpValue.Open off) := by
            rw [hext, List.getElem?_append_left hlt]
            exact hid
          simpa [hfn, hcap] using hpre
    all_goals simp only [exec_op]
    all_goals try exact hid
    all_goals try (generalize hp : vm.pop2_int = p; obtain ⟨vm1, r⟩ := p; have hcl : vm.cells = vm1.cells := (pop2_int_cells vm).symm.trans (congrArg (fun q => Vm.cells q.1) hp); rcases r with ⟨⟨a, b⟩⟩ | ⟨e⟩ | ⟨m⟩ <;> (try dsimp only) <;> (try split) <;> exact hcl ▸ hid)
    all_goals try (generalize hp : vm.pop2_float = p; obtain ⟨vm1, r⟩ := p; have hcl : vm.cells = vm1.cells := (pop2_float_cells vm).symm.trans (congrArg (fun q => Vm.cells q.1) hp); rcases r with ⟨⟨a, b⟩⟩ | ⟨e⟩ | ⟨m⟩ <;> (try dsimp only) <;> (try split) <;> exact hcl ▸ hid)
    all_goals try (generalize hp : vm.pop_int = p; obtain ⟨vm1, r⟩ := p; have hcl : vm.cells = vm1.cells := (pop_int_cells vm).symm.trans (congrArg (fun q => Vm.cells q.1) hp); rcases r with ⟨i⟩ | ⟨e⟩ | ⟨m⟩ <;> (try dsimp only) <;> (try split) <;> exact hcl ▸ hid)
    all_goals (repeat' split)
    all_goals exact hid
  · intro vm frame start count
    simp only [handle_return]
    repeat' split
    all_goals rfl
  · intro vm frame base results
    simp only [handle_call]
    repeat' split
    all_goals rfl

/-- Witness for C3 at a concrete frame holding one open cell: the
`Return 0` closes it with the value read from its stack offset and
drains the frame-local list. -/
theorem crow_c3_witness :
    exec_op c3Vm c3Frame (Op.Return 0) =
      ({ stack := [Value.int 42], calls := [], cells := [UpValue.Closed (Value.int 42)] },
       { c3Frame with up_values := [] }, StepOut.action (FrameAction.ret 1 0)) ∧
    (∀ id, id ∈ c3Frame.up_values →
      ∃ v, ({ stack := [Value.int 42], calls := [],
              cells := [UpValue.Closed (Value.int 42)] } : Vm).cells[id]? =
        some (UpValue.Closed v)) ∧
    (∀ (id off : Nat), id ∈ c3Frame.up_values →
      c3Vm.cells[id]? = some (UpValue.Open off) →
      ∃ v, c3Vm.stack[off]? = some v ∧
        ({ stack := [Value.int 42], calls := [],
           cells := [UpValue.Closed (Value.int 42)] } : Vm).cells[id]? =
          some (UpValue.Closed v)) ∧
    ({ c3Frame with up_values := [] } : CallFrame).up_values = [] :=
  ⟨rfl, (crow_c3.1 c3Vm c3Frame 0 _ _ _ rfl).1, (crow_c3.1 c3Vm c3Frame 0 _ _ _ rfl).2.1,
   (crow_c3.1 c3Vm c3Frame 0 _ _ _ rfl).2.2⟩

end Crow

namespace Crow

/-- Full characterization of a successful `capture_origins` walk,
generalized over the accumulators: the stack and call stack are
untouched; the closure vector grows by one handle per origin, in order;
the frame-local list grows by exactly the freshly allocated handles (one
per `Parent` origin); pre-existing cells are preserved; each `Parent i`
entry is a fresh handle to a new `Open (base + i)` cell; each `Outer j`
entry is a copy of the executing closure's handle `j`. -/
theorem capture_origins_spec (base : Nat) (puvs : List Nat) :
    ∀ (origins : List UpValueOrigin) (vm : Vm) (fuvs acc : List Nat)
      (vm' : Vm) (fuvs' acc' : List Nat),
      capture_origins base puvs vm fuvs acc origins = Res.ok (vm', fuvs', acc') →
      vm'.stack = vm.stack ∧ vm'.calls = vm.calls ∧
      acc'.length = acc.length + origins.length ∧
      (∀ k : Nat, k < acc.length → acc'[k]? = acc[k]?) ∧
      (∃ fresh : List Nat,
        fuvs' = fuvs ++ fresh ∧
        fresh.length = (origins.filter UpValueOrigin.isParent).length ∧
        vm'.cells.length = vm.cells.length + fresh.length ∧
        (∀ idx : Nat, idx < vm.cells.length → vm'.cells[idx]? = vm.cells[idx]?) ∧
        (∀ (k i : Nat), origins[k]? = some (UpValueOrigin.Parent i) →
          ∃ id : Nat, acc'[acc.length + k]? = some id ∧ vm.cells.length ≤ id ∧
            vm'.cells[id]? = some (UpValue.Open (base + i)) ∧ id ∈ fresh) ∧
        (∀ (k j : Nat), origins[k]? = some (UpValueOrigin.Outer j) →
          acc'[acc.length + k]? = puvs[j]?))
  | [], vm, fuvs, acc, vm', fuvs', acc', h => by
    simp only [capture_origins, Res.ok.injEq, Prod.mk.injEq] at h
    obtain ⟨h1, h2, h3⟩ := h
    subst h1
    subst h2
    subst h3
    refine ⟨rfl, rfl, by simp, fun k hk => rfl, [], by simp, by simp, by simp,
            fun idx hidx => rfl, ?_, ?_⟩
    · intro k i hk
      simp at hk
    · intro k j hk
      simp at hk
  | UpValueOrigin.Parent i :: rest, vm, fuvs, acc, vm', fuvs', acc', h => by
    simp only [capture_origins] at h
    obtain ⟨hstack, hcalls, hlen, hpre, fresh1, hfv, hflen, hclen, hcpre, hpar, hout⟩ :=
      capture_origins_spec base puvs rest
        { vm with cells := vm.cells ++ [UpValue.Open (base + i)] }
        (fuvs ++ [vm.cells.length]) (acc ++ [vm.cells.length]) vm' fuvs' acc' h
    refine ⟨hstack, hcalls, by simp at hlen ⊢; omega, ?_, vm.cells.length :: fresh1,
            ?_, ?_, ?_, ?_, ?_, ?_⟩
    · intro k hk
      rw [hpre k (by simp; omega), List.getElem?_append_left hk]
    · rw [hfv, List.append_assoc]
      rfl
    · simp only [List.filter_cons, UpValueOrigin.isParent, if_true, List.length_cons]
      omega
    · simp only [List.length_cons]
      simp only [List.length_append, List.length_cons, List.length_nil] at hclen
      omega
    · intro idx hidx
      rw [hcpre idx (by simp; omega), List.getElem?_append_left hidx]
    · intro k i' hk
      cases k with
      | zero =>
        simp only [List.getElem?_cons_zero, Option.some.injEq] at hk
        cases hk
        refine ⟨vm.cells.length, ?_, Nat.le_refl _, ?_, List.mem_cons_self _ _⟩
        · rw [Nat.add_zero, hpre acc.length (by simp), List.getElem?_concat_length]
        · rw [hcpre vm.cells.length (by simp), List.getElem?_concat_length]
      | succ k' =>
        rw [List.getElem?_cons_succ] at hk
        obtain ⟨id, hacc, hge, hcell, hmem⟩ := hpar k' i' hk
        refine ⟨id, ?_, ?_, hcell, List.mem_cons_of_mem _ hmem⟩
        · rw [← hacc]
          congr 1
          simp
          omega
        · calc vm.cells.length ≤ vm.cells.length + 1 := by omega
            _ = ({ vm with cells := vm.cells ++ [UpValue.Open (base + i)] } : Vm).cells.length := by
                simp
            _ ≤ id := hge
    · intro k j hk
      cases k with
      | zero =>
        simp only [List.getElem?_cons_zero, Option.some.injEq] at hk
        cases hk
      | succ k' =>
        rw [List.getElem?_cons_succ] at hk
        rw [← hout k' j hk]
        congr 1
        simp
        omega
  | UpValueOrigin.Outer j :: rest, vm, fuvs, acc, vm', fuvs', acc', h => by
    simp only [capture_origins] at h
    cases hj : puvs[j]? with
    | none =>
      rw [hj] at h
      cases h
    | some pid =>
      rw [hj] at h
      obtain ⟨hstack, hcalls, hlen, hpre, fresh1, hfv, hflen, hclen, hcpre, hpar, hout⟩ :=
        capture_origins_spec base puvs rest vm fuvs (acc ++ [pid]) vm' fuvs' acc' h
      refine ⟨hstack, hcalls, by simp at hlen ⊢; omega, ?_, fresh1, hfv, ?_, hclen, hcpre,
              ?_, ?_⟩
      · intro k hk
        rw [hpre k (by simp; omega), List.getElem?_append_left hk]
      · simp only [List.filter_cons, UpValueOrigin.isParent, if_false, Bool.false_eq_true]
        exact hflen
      · intro k i hk
        cases k with
        | zero =>
          simp only [List.getElem?_cons_zero, Option.some.injEq] at hk
          cases hk
        | succ k' =>
          rw [List.getElem?_cons_succ] at hk
          obtain ⟨id, hacc, hge, hcell, hmem⟩ := hpar k' i hk
          refine ⟨id, ?_, hge, hcell, hmem⟩
          rw [← hacc]
          congr 1
          simp
          omega
      · intro k j' hk
        cases k with
        | zero =>
          simp only [List.getElem?_cons_zero, Option.some.injEq] at hk
          cases hk
          rw [Nat.add_zero, hpre acc.length (by simp), List.getElem?_concat_length, hj]
        | succ k' =>
          rw [List.getElem?_cons_succ] at hk
          rw [← hout k' j' hk]
          congr 1
          simp
          omega

end Crow

namespace Crow

/-- C4.  `CreateClosure{proto_id}` processes the target prototype's
`up_values` table in order: every `Parent i` entry allocates a fresh cell
`Open (base + i)` whose handle is stored both at position `k` of the new
closure's vector and in the current frame's frame-local list; every
`Outer j` entry copies the executing closure's handle at index `j` with
no new cell allocated (the heap grows by exactly one cell per `Parent`
entry, and pre-existing cells are untouched); the resulting closure is
pushed onto the operand stack as a closure object value. -/
theorem crow_c4 (vm : Vm) (frame : CallFrame) (func_id : Arg24) (target : Func)
    (vm' : Vm) (frame' : CallFrame)
    (hres : frame.func.constants.funcs[func_id.into_usize]? = some target)
    (hexec : exec_op vm frame (Op.CreateClosure func_id) = (vm', frame', StepOut.next)) :
    ∃ (uvs fresh : List Nat),
      vm'.stack = vm.stack ++ [Value.object (Object.closure (Closure.with_up_values target uvs))] ∧
      uvs.length = target.up_values.length ∧
      frame'.up_values = frame.up_values ++ fresh ∧
      fresh.length = (target.up_values.filter UpValueOrigin.isParent).length ∧
      vm'.cells.length = vm.cells.length + fresh.length ∧
      (∀ idx : Nat, idx < vm.cells.length → vm'.cells[idx]? = vm.cells[idx]?) ∧
      (∀ (k i : Nat), target.up_values[k]? = some (UpValueOrigin.Parent i) →
        ∃ id : Nat, uvs[k]? = some id ∧ vm.cells.length ≤ id ∧
          vm'.cells[id]? = some (UpValue.Open (frame.base + i)) ∧ id ∈ fresh) ∧
      (∀ (k j : Nat), target.up_values[k]? = some (UpValueOrigin.Outer j) →
        uvs[k]? = frame.closure.up_values[j]?) ∧
      frame'.ip = frame.ip ∧ frame'.base = frame.base ∧ vm'.calls = vm.calls := by
  simp only [exec_op, hres] at hexec
  cases hcap : capture_origins frame.base frame.closure.up_values vm
      frame.up_values [] target.up_values with
  | err e =>
    rw [hcap] at hexec
    simp at hexec
  | crash m =>
    rw [hcap] at hexec
    simp at hexec
  | ok triple =>
    obtain ⟨vm1, fuvs, uvs⟩ := triple
    rw [hcap] at hexec
    simp only [Prod.mk.injEq] at hexec
    obtain ⟨h1, h2, -⟩ := hexec
    subst h1
    subst h2
    obtain ⟨hstack, hcalls, hlen, -, fresh, hfv, hflen, hclen, hcpre, hpar, hout⟩ :=
      capture_origins_spec frame.base frame.closure.up_values target.up_values
        vm frame.up_values [] vm1 fuvs uvs hcap
    refine ⟨uvs, fresh, ?_, ?_, hfv, hflen, hclen, hcpre, ?_, ?_, rfl, rfl, hcalls⟩
    · rw [hstack]
    · simpa using hlen
    · intro k i hk
      obtain ⟨id, hacc, hge, hcell, hmem⟩ := hpar k i hk
      refine ⟨id, ?_, hge, hcell, hmem⟩
      simpa using hacc
    · intro k j hk
      have := hout k j hk
      simpa using this

/-- Witness for C4 at a concrete state: target origin table
`[Parent 1, Outer 0]`, frame base 10, executing closure vector `[2]`,
three pre-existing cells. -/
theorem crow_c4_witness :
    c4Frame.func.constants.funcs[(a24 0).into_usize]? = some c4Target ∧
    exec_op c4Vm c4Frame (Op.CreateClosure (a24 0)) =
      ({ stack := c4Vm.stack ++
            [Value.object (Object.closure (Closure.with_up_values c4Target [3, 2]))],
         calls := [],
         cells := [UpValue.Open 0, UpValue.Closed (Value.int 5), UpValue.Open 1,
                   UpValue.Open 11] },
       { c4Frame with up_values := [7, 3] }, StepOut.next) ∧
    (∃ (uvs fresh : List Nat),
      ({ stack := c4Vm.stack ++
            [Value.object (Object.closure (Closure.with_up_values c4Target [3, 2]))],
         calls := [],
         cells := [UpValue.Open 0, UpValue.Closed (Value.int 5), UpValue.Open 1,
                   UpValue.Open 11] } : Vm).stack =
        c4Vm.stack ++ [Value.object (Object.closure (Closure.with_up_values c4Target uvs))] ∧
      uvs.length = c4Target.up_values.length ∧
      ({ c4Frame with up_values := [7, 3] } : CallFrame).up_values =
        c4Frame.up_values ++ fresh ∧
      fresh.length = (c4Target.up_values.filter UpValueOrigin.isParent).length ∧
      ({ stack := c4Vm.stack ++
            [Value.object (Object.closure (Closure.with_up_values c4Target [3, 2]))],
         calls := [],
         cells := [UpValue.Open 0, UpValue.Closed (Value.int 5), UpValue.Open 1,
                   UpValue.Open 11] } : Vm).cells.length = c4Vm.cells.length + fresh.length ∧
      (∀ idx : Nat, idx < c4Vm.cells.length →
        ({ stack := c4Vm.stack ++
              [Value.object (Object.closure (Closure.with_up_values c4Target [3, 2]))],
           calls := [],
           cells := [UpValue.Open 0, UpValue.Closed (Value.int 5), UpValue.Open 1,
                     UpValue.Open 11] } : Vm).cells[idx]? = c4Vm.cells[idx]?) ∧
      (∀ (k i : Nat), c4Target.up_values[k]? = some (UpValueOrigin.Parent i) →
        ∃ id : Nat, uvs[k]? = some id ∧ c4Vm.cells.length ≤ id ∧
          ({ stack := c4Vm.stack ++
                [Value.object (Object.closure (Closure.with_up_values c4Target [3, 2]))],
             calls := [],
             cells := [UpValue.Open 0, UpValue.Closed (Value.int 5), UpValue.Open 1,
                       UpValue.Open 11] } : Vm).cells[id]? =
            some (UpValue.Open (c4Frame.base + i)) ∧ id ∈ fresh) ∧
      (∀ (k j : Nat), c4Target.up_values[k]? = some (UpValueOrigin.Outer j) →
        uvs[k]? = c4Frame.closure.up_values[j]?) ∧
      ({ c4Frame with up_values := [7, 3] } : CallFrame).ip = c4Frame.ip ∧
      ({ c4Frame with up_values := [7, 3] } : CallFrame).base = c4Frame.base ∧
      ({ stack := c4Vm.stack ++
            [Value.object (Object.closure (Closure.with_up_values c4Target [3, 2]))],
         calls := [],
         cells := [UpValue.Open 0, UpValue.Closed (Value.int 5), UpValue.Open 1,
                   UpValue.Open 11] } : Vm).calls = c4Vm.calls) :=
  ⟨rfl, rfl, crow_c4 c4Vm c4Frame (a24 0) c4Target _ _ rfl rfl⟩

end Crow

namespace Crow

/-- Characterization of the result-copy loop: under the bound that every
read index is in range, the copy succeeds, preserves the length, leaves
every position outside the written window `[base + offset, base + offset
+ count)` unchanged, and fills position `base + offset + k` with the
original value at `base + start + offset + k`.  Reads always land at or
above the current write position, so they see original values. -/
theorem copy_results_spec (base start : Nat) :
    ∀ (count offset : Nat) (st : List Value),
      base + start + offset + count ≤ st.length →
      ∃ st', copy_results base start st offset count = Res.ok st' ∧
        st'.length = st.length ∧
        (∀ j : Nat, j < base + offset ∨ base + offset + count ≤ j → st'[j]? = st[j]?) ∧
        (∀ k : Nat, k < count → st'[base + offset + k]? = st[base + start + offset + k]?)
  | 0, offset, st, hb => by
    refine ⟨st, rfl, rfl, fun j hj => rfl, ?_⟩
    intro k hk
    omega
  | rem + 1, offset, st, hb => by
    cases hv : st[base + start + offset]? with
    | none =>
      rw [List.getElem?_eq_none_iff] at hv
      omega
    | some v =>
      have hwlt : base + offset < st.length := by omega
      obtain ⟨st', hcopy, hlen, huntouched, hwrites⟩ :=
        copy_results_spec base start rem (offset + 1) (st.set (base + offset) v)
          (by rw [List.length_set]; omega)
      refine ⟨st', ?_, ?_, ?_, ?_⟩
      · simp only [copy_results, hv]
        exact hcopy
      · rw [hlen, List.length_set]
      · intro j hj
        have h1 : st'[j]? = (st.set (base + offset) v)[j]? := by
          apply huntouched
          omega
        rw [h1, List.getElem?_set_ne (by omega : base + offset ≠ j)]
      · intro k hk
        cases k with
        | zero =>
          have h1 : st'[base + offset]? = (st.set (base + offset) v)[base + offset]? := by
            apply huntouched
            omega
          rw [Nat.add_zero, h1, List.getElem?_set_self hwlt, Nat.add_zero, hv]
        | succ k' =>
          have h1 : base + offset + (k' + 1) = base + (offset + 1) + k' := by omega
          have h2 : base + start + (offset + 1) + k' = base + start + offset + (k' + 1) := by
            omega
          rw [h1, hwrites k' (by omega), h2,
              List.getElem?_set_ne (by omega : base + offset ≠ base + start + offset + (k' + 1))]

end Crow

namespace Crow

/-- C1.  For a call that returns normally (non-outermost, callee produced
`n` results, caller expected `r = frame.results ≤ n` of them, with
`start` as produced by `Op.Return`, i.e. `stack_len - base - n`):
`handle_return` copies exactly `min(r, n) = r` values from the callee's
result window down to `stack[frame.base ..]`, truncates the operand
stack to `frame.base + r` — so the callable slot at `frame.base` is
overwritten by the first result or erased when `r = 0` — and the top `r`
values of the caller's stack are the first `r` callee results in order;
control returns to the popped caller frame and the cell heap is
untouched. -/
theorem crow_c1 (vm : Vm) (frame : CallFrame) (n start : Nat) (caller frame2 : CallFrame)
    (rest : List CallFrame) (vm' : Vm)
    (hcalls : vm.calls = caller :: rest)
    (hr : frame.results ≤ n)
    (hn : frame.base + n ≤ vm.stack.length)
    (hstart : start = vm.stack.length - frame.base - n ∨ n = 0)
    (hrun : handle_return vm frame start n = (vm', HandleOut.cont frame2)) :
    vm'.stack = vm.stack.take frame.base ++
      (vm.stack.drop (vm.stack.length - n)).take frame.results ∧
    vm'.stack.length = frame.base + frame.results ∧
    frame2 = caller ∧ vm'.calls = rest ∧ vm'.cells = vm.cells := by
  simp only [handle_return] at hrun
  cases hb : vm.stack[frame.base]? with
  | none =>
    rw [hb] at hrun
    cases hrun
  | some v =>
    simp only [hb, hcalls] at hrun
    rw [if_neg (by omega : ¬ n < frame.results)] at hrun
    have hmin : min frame.results n = frame.results := Nat.min_eq_left hr
    by_cases hss : frame.base + frame.func.stack_size ≤ vm.stack.length
    · rw [if_pos hss] at hrun
      by_cases hov : frame.func.stack_size < start + min frame.results n
      · rw [if_pos hov] at hrun
        cases hrun
      · rw [if_neg hov] at hrun
        obtain ⟨st', hcopy, hlen', huntouched, hwrites⟩ :=
          copy_results_spec frame.base start (min frame.results n) 0 vm.stack (by omega)
        rw [hcopy] at hrun
        simp only [Prod.mk.injEq, HandleOut.cont.injEq] at hrun
        obtain ⟨hvm', hfr⟩ := hrun
        subst hfr
        subst hvm'
        have hr' : frame.results ≤ vm.stack.length := by omega
        refine ⟨?_, ?_, rfl, rfl, rfl⟩
        · apply List.ext_getElem?
          intro j
          rw [hmin]
          simp only [List.getElem?_take, List.getElem?_append, List.getElem?_drop,
                     List.length_take]
          by_cases hj1 : j < frame.base
          · rw [if_pos (by omega : j < frame.base + frame.results),
               if_pos (by omega : j < min frame.base vm.stack.length),
               if_pos hj1]
            exact huntouched j (Or.inl (by omega))
          · by_cases hj2 : j < frame.base + frame.results
            · rw [if_pos hj2, if_neg (by omega : ¬ j < min frame.base vm.stack.length),
                 if_pos (by omega : j - min frame.base vm.stack.length < frame.results)]
              have hidx : j = frame.base + 0 + (j - frame.base) := by omega
              rw [hidx, hwrites (j - frame.base) (by omega)]
              congr 1
              rcases hstart with hst | hn0
              · omega
              · omega
            · rw [if_neg hj2, if_neg (by omega : ¬ j < min frame.base vm.stack.length),
                 if_neg (by omega : ¬ j - min frame.base vm.stack.length < frame.results)]
        · rw [List.length_take, hmin]
          omega
    · rw [if_neg hss] at hrun
      cases hrun

end Crow

namespace Crow

/-- Witness for C1 at a concrete return: callee at base 1 returns one
result (`n = 1`, `start = 2`), and the caller receives it at the top of
its truncated stack. -/
theorem crow_c1_witness :
    c1Vm.calls = scratchFrame :: [] ∧ c1Frame.results ≤ 1 ∧
    c1Frame.base + 1 ≤ c1Vm.stack.length ∧
    (2 = c1Vm.stack.length - c1Frame.base - 1 ∨ (1 : Nat) = 0) ∧
    handle_return c1Vm c1Frame 2 1 = (c1Vm', HandleOut.cont scratchFrame) ∧
    (c1Vm'.stack = c1Vm.stack.take c1Frame.base ++
        (c1Vm.stack.drop (c1Vm.stack.length - 1)).take c1Frame.results ∧
      c1Vm'.stack.length = c1Frame.base + c1Frame.results ∧
      scratchFrame = scratchFrame ∧ c1Vm'.calls = [] ∧ c1Vm'.cells = c1Vm.cells) :=
  ⟨rfl, by decide, by decide, Or.inl rfl, rfl,
   crow_c1 c1Vm c1Frame 1 2 scratchFrame scratchFrame [] c1Vm' rfl (by decide) (by decide)
     (Or.inl rfl) rfl⟩

end Crow
